import Mathlib

/-!
Shallow embedding of the `agb` display resource-management core
(`src/agb/src/display/background.rs` and `src/agb/src/display/object.rs`)
together with proofs about the specification claims.

Modelling conventions:
* machine integers (`u16`, `u8`, 9-bit fields, ...) are `Nat` with explicit
  `% 2^w` exactly where the Rust code casts or where wrapping arithmetic
  can occur; `i32` is `Int` (Rust `rem_euclid` is Lean `%` on `Int`,
  Rust truncating `/` is `Int.tdiv`);
* a Rust function that can panic is modelled as returning `Option`
  (`none` = panic), or `RustResult` where a fatal panic must be
  distinguished from a recoverable `Option::None` return value;
* `hashbrown::HashMap` state is modelled by an association list with
  first-match lookup, overwrite on insert and erase on remove;
* volatile hardware memory is modelled either as a write log
  (`tile_background` in `VRamManager`) or as a function `Nat -> Nat`
  from word addresses to 16-bit values (screenblock and OAM memory).
-/

/-- Generic association-list lookup, modelling `HashMap::get`. -/
def alookup {κ β : Type} [DecidableEq κ] : List (κ × β) → κ → Option β
  | [], _ => none
  | (k', v) :: rest, k => if k' = k then some v else alookup rest k

/-- Generic association-list erase, modelling `HashMap::remove`. -/
def aerase {κ β : Type} [DecidableEq κ] : List (κ × β) → κ → List (κ × β)
  | [], _ => []
  | (k', v) :: rest, k => if k' = k then aerase rest k else (k', v) :: aerase rest k

/-- Generic association-list insert/overwrite, modelling `HashMap::insert`
(and in-place updates through `HashMap::get_mut`). -/
def ainsert {κ β : Type} [DecidableEq κ] (l : List (κ × β)) (k : κ) (v : β) : List (κ × β) :=
  (k, v) :: aerase l k

/-- Result of running a Rust function whose failure by panic must be kept
distinct from any value it can return. -/
inductive RustResult (α : Type) where
  | panicked
  | ok (val : α)
deriving DecidableEq

/-- `TileFormat` from background.rs (only `FourBpp` exists). -/
inductive TileFormat where
  | fourBpp
deriving DecidableEq

/-- `TileFormat::tile_size`: size of one tile in bytes. -/
def TileFormat.tile_size : TileFormat → Nat
  | .fourBpp => 8 * 8 / 2

/-- `TileSet`: a caller-supplied buffer of tile graphics words (`&[u32]`). -/
structure TileSet where
  tiles : List Nat
  format : TileFormat
deriving DecidableEq

/-- `TileSetReference { id: u16, generation: u16 }`. -/
structure TileSetReference where
  id : Nat
  generation : Nat
deriving DecidableEq

/-- `VRamState`: state of one physical background-tile VRAM slot.
The `TileReference(u16, u16)` owner key is modelled as `Nat × Nat`. -/
inductive VRamState where
  | referenceCounted (count : Nat) (tile_reference : Nat × Nat)
  | free (next : Nat)
deriving DecidableEq

/-- `ArenaStorageItem<TileSet>`: one slot of the tileset arena. -/
inductive ArenaStorageItem where
  | endOfFreeList
  | nextFree (n : Nat)
  | data (tileset : TileSet) (generation : Nat)
deriving DecidableEq

/-- `VRamManager`. The extra field `tile_background` is the write log of
`TILE_BACKGROUND.set(index, word)` hardware stores. -/
structure VRamManager where
  tilesets : List ArenaStorageItem
  generation : Nat
  free_pointer : Option Nat
  tile_set_to_vram : List ((Nat × Nat) × (Nat × Nat))
  references : List VRamState
  vram_free_pointer : Option Nat
  tile_background : List (Nat × Nat)
deriving DecidableEq

/-- `END_OF_FREE_LIST_MARKER: u16 = u16::MAX`. -/
def END_OF_FREE_LIST_MARKER : Nat := 65535

/-- `VRamManager::new`. -/
def VRamManager.new : VRamManager where
  tilesets := []
  generation := 0
  free_pointer := none
  tile_set_to_vram := []
  references := [.free 0]
  vram_free_pointer := none
  tile_background := []

/-- `VRamManager::add_tileset`. `none` models a panic
("Free pointer shouldn't point to valid data" or an out-of-bounds index). -/
def VRamManager.add_tileset (m : VRamManager) (tileset : TileSet) :
    Option (TileSetReference × VRamManager) :=
  let generation := m.generation
  let m := { m with generation := (m.generation + 1) % 65536 }
  let item := ArenaStorageItem.data tileset generation
  match m.free_pointer with
  | some ptr =>
    match m.tilesets.get? ptr with
    | some .endOfFreeList =>
      some (⟨ptr % 65536, generation⟩,
        { m with tilesets := m.tilesets.set ptr item, free_pointer := none })
    | some (.nextFree next_free) =>
      some (⟨ptr % 65536, generation⟩,
        { m with tilesets := m.tilesets.set ptr item, free_pointer := some next_free })
    | _ => none
  | none =>
    some (⟨m.tilesets.length % 65536, generation⟩,
      { m with tilesets := m.tilesets ++ [item], free_pointer := none })

/-- `VRamManager::remove_tileset`. `none` models a panic: the
generation-mismatch assertion or the "Already freed, probably a double
free?" arm (and an out-of-bounds index). -/
def VRamManager.remove_tileset (m : VRamManager) (tile_set_ref : TileSetReference) :
    Option VRamManager :=
  match m.tilesets.get? tile_set_ref.id with
  | some (.data _ generation) =>
    if generation = tile_set_ref.generation then
      let item := match m.free_pointer with
        | some ptr => ArenaStorageItem.nextFree ptr
        | none => ArenaStorageItem.endOfFreeList
      some { m with tilesets := m.tilesets.set tile_set_ref.id item,
                    free_pointer := some tile_set_ref.id }
    else none
  | _ => none

/-- The cache-miss tail of `VRamManager::add_tile`: allocate a physical
slot from the VRAM free list (or grow), copy the 8 tile words to
`TILE_BACKGROUND`, insert the owner-key mapping with refcount 1. -/
def VRamManager.add_tile_alloc (m : VRamManager) (tile_set_ref : TileSetReference)
    (tile : Nat) : Option (Nat × VRamManager) :=
  let tile_ref : Nat × Nat := (tile_set_ref.id, tile)
  let alloc : Option (Nat × VRamManager) :=
    match m.vram_free_pointer with
    | some ptr =>
      match m.references.get? ptr with
      | some (.free next_free) =>
        some (ptr,
          { m with
              vram_free_pointer :=
                if next_free ≠ END_OF_FREE_LIST_MARKER then some next_free else none,
              references := m.references.set ptr (.referenceCounted 1 tile_ref) })
      | _ => none
    | none =>
      some (m.references.length,
        { m with references := m.references ++ [.referenceCounted 1 tile_ref] })
  match alloc with
  | none => none
  | some (index_to_copy_into, m) =>
    match m.tilesets.get? tile_set_ref.id with
    | some (.data data generation) =>
      if generation = tile_set_ref.generation then
        let tile_offset := tile * (data.format.tile_size / 4)
        if tile_offset + data.format.tile_size / 4 ≤ data.tiles.length then
          let tile_slice := (data.tiles.drop tile_offset).take (data.format.tile_size / 4)
          let writes := tile_slice.enum.map fun p => (index_to_copy_into * 8 + p.1, p.2)
          some (index_to_copy_into % 65536,
            { m with
                tile_background := m.tile_background ++ writes,
                tile_set_to_vram :=
                  ainsert m.tile_set_to_vram tile_ref
                    (index_to_copy_into % 65536, tile_set_ref.generation) })
        else none
      else none
    | _ => none

/-- `VRamManager::add_tile`. `none` models a panic (corrupted VRAM state,
stale tile data, out-of-bounds slice). -/
def VRamManager.add_tile (m : VRamManager) (tile_set_ref : TileSetReference)
    (tile : Nat) : Option (Nat × VRamManager) :=
  match alookup m.tile_set_to_vram (tile_set_ref.id, tile) with
  | some reference =>
    if reference.2 = tile_set_ref.generation then
      match m.references.get? reference.1 with
      | some (.referenceCounted count tile_ref) =>
        let refs := m.references.set reference.1 (.referenceCounted ((count + 1) % 65536) tile_ref)
        some (reference.1, { m with references := refs })
      | _ => none
    else m.add_tile_alloc tile_set_ref tile
  | none => m.add_tile_alloc tile_set_ref tile

/-- `VRamManager::remove_tile`. `none` models the "Corrupted vram state"
panic of `decrease_reference` (and an out-of-bounds index). -/
def VRamManager.remove_tile (m : VRamManager) (tile_index : Nat) : Option VRamManager :=
  match m.references.get? tile_index with
  | some (.referenceCounted count tile_ref) =>
    let new_count := (count + 65535) % 65536
    if new_count ≠ 0 then
      some { m with references :=
        m.references.set tile_index (.referenceCounted new_count tile_ref) }
    else
      let next := match m.vram_free_pointer with
        | some ptr => ptr % 65536
        | none => END_OF_FREE_LIST_MARKER
      some { m with
        references := m.references.set tile_index (.free next),
        tile_set_to_vram := aerase m.tile_set_to_vram tile_ref,
        vram_free_pointer := some tile_index }
  | _ => none

/-- `RegularMap`: one background layer's shadow state. `tiles` holds the
packed 16-bit `Tile` values of the 32×32 grid. -/
structure RegularMap where
  background_id : Nat
  screenblock : Nat
  x_scroll : Nat
  y_scroll : Nat
  priority : Nat
  tiles : List Nat
  tiles_dirty : Bool
deriving DecidableEq

/-- `RegularMap::new`. -/
def RegularMap.new (background_id screenblock priority : Nat) : RegularMap where
  background_id := background_id
  screenblock := screenblock
  x_scroll := 0
  y_scroll := 0
  priority := priority
  tiles := List.replicate (32 * 32) 0
  tiles_dirty := true

/-- `RegularMap::set_tile`. `TileSetting` is its packed `u16`; the packed
`Tile` for the cell is `idx | (setting & !((1 << 10) - 1))`, the cell's
stored slot index is `tile & ((1 << 10) - 1)`. -/
def RegularMap.set_tile (m : RegularMap) (vram : VRamManager) (pos : Nat × Nat)
    (tileset_ref : TileSetReference) (tile_setting : Nat) :
    Option (RegularMap × VRamManager) :=
  let p := pos.1 + pos.2 * 32
  if p < m.tiles.length then
    let old_tile := m.tiles.getD p 0
    match (if old_tile ≠ 0 then vram.remove_tile (old_tile &&& 1023) else some vram) with
    | none => none
    | some vram1 =>
      let tile_index := tile_setting &&& 1023
      match (if tile_index ≠ 0 then
               match vram1.add_tile tileset_ref tile_index with
               | some (new_tile_idx, vram2) =>
                 some (new_tile_idx ||| (tile_setting &&& 64512), vram2)
               | none => none
             else some (0, vram1)) with
      | none => none
      | some (new_tile, vram2) =>
        if old_tile = new_tile then some (m, vram2)
        else some ({ m with tiles := m.tiles.set p new_tile, tiles_dirty := true }, vram2)
  else none

/-- The loop body of `RegularMap::clear`: release every cell's slot index
(`tile.tile_index()`, i.e. `tile & 1023`) and reset the cell to the
default tile. -/
def clearCells : List Nat → VRamManager → Option (List Nat × VRamManager)
  | [], vram => some ([], vram)
  | t :: rest, vram =>
    match vram.remove_tile (t &&& 1023) with
    | none => none
    | some vram1 =>
      match clearCells rest vram1 with
      | some (ts, vram2) => some (0 :: ts, vram2)
      | none => none

/-- `RegularMap::clear`. `none` models a panic inside `remove_tile`. -/
def RegularMap.clear (m : RegularMap) (vram : VRamManager) :
    Option (RegularMap × VRamManager) :=
  match clearCells m.tiles vram with
  | some (ts, vram1) => some ({ m with tiles := ts }, vram1)
  | none => none

/-- Rust `div_floor` from background.rs (Rust `/` truncates, hence
`Int.tdiv`). -/
def div_floor (x y : Int) : Int :=
  if x > 0 ∧ y < 0 then Int.tdiv (x - 1) y - 1
  else if x < 0 ∧ y > 0 then Int.tdiv (x + 1) y - 1
  else Int.tdiv x y

/-- Rust `div_ceil` from background.rs. -/
def div_ceil (x y : Int) : Int :=
  if x > 0 ∧ y > 0 then Int.tdiv (x - 1) y + 1
  else if x < 0 ∧ y < 0 then Int.tdiv (x + 1) y + 1
  else Int.tdiv x y

/-- Modelled from the spec: `display::WIDTH` lives outside the provided
sources; §4.4's window sizes (32-tile row, 22-tile column, 10-tile jump
threshold) fix the visible width at 240 pixels. -/
def WIDTH : Int := 240

/-- Modelled from the spec: `display::HEIGHT` lives outside the provided
sources; §4.4's window sizes fix the visible height at 160 pixels. -/
def HEIGHT : Int := 160

/-- The screenblock-memory write loop of `RegularMap::commit`: the ids are
written in loop order, each receiving `self.tiles[id]`. -/
def screenblockWrite (tiles : List Nat) : List Nat → (Nat → Nat) → (Nat → Nat)
  | [], mem => mem
  | id :: rest, mem =>
    screenblockWrite tiles rest (fun a => if a = id then tiles.getD id 0 else mem a)

/-- The list of screenblock cell ids `RegularMap::commit` writes when the
dirty flag is set: `y ∈ [start_y, end_y)`, `x ∈ [start_x, end_x)`,
`id = y.rem_euclid(32) * 32 + x.rem_euclid(32)`. -/
def RegularMap.commit_ids (m : RegularMap) : List Nat :=
  let start_x := m.x_scroll / 8
  let end_x := (div_ceil ((m.x_scroll : Int) + WIDTH) 8).toNat % 65536 + 1
  let start_y := m.y_scroll / 8
  let end_y := (div_ceil ((m.y_scroll : Int) + HEIGHT) 8).toNat % 65536 + 1
  (List.range (end_y - start_y)).flatMap fun dy =>
    (List.range (end_x - start_x)).map fun dx =>
      ((start_y + dy) % 32) * 32 + (start_x + dx) % 32

/-- `RegularMap::commit`. Returns the updated map, the three register
writes (background control, horizontal scroll, vertical scroll) and the
updated screenblock memory. -/
def RegularMap.commit (m : RegularMap) (mem : Nat → Nat) :
    RegularMap × (Nat × Nat × Nat) × (Nat → Nat) :=
  let new_bg_control_value := Nat.lor m.priority (m.screenblock <<< 8)
  let regs := (new_bg_control_value, m.x_scroll, m.y_scroll)
  if m.tiles_dirty then
    ({ m with tiles_dirty := false }, regs, screenblockWrite m.tiles m.commit_ids mem)
  else (m, regs, mem)

/-- `InfiniteScrolledMap` state. The `get_tile` closure (a boxed `dyn Fn`
in Rust) is passed explicitly to each operation. -/
structure InfiniteScrolledMap where
  map : RegularMap
  current_pos : Int × Int
  offset : Int × Int
deriving DecidableEq

/-- Modelled from the spec: `Rect::iter` comes from the `fixnum` module,
which is not among the provided sources. Per §4.4 an update rectangle is
traversed "calling the fetch function once per newly exposed cell", i.e.
over the integer points `x ∈ [pos.x, pos.x + size.x)`,
`y ∈ [pos.y, pos.y + size.y)` (empty when a size component is ≤ 0). -/
def rectIter (pos size : Int × Int) : List (Int × Int) :=
  (List.range size.2.toNat).flatMap fun dy : Nat =>
    (List.range size.1.toNat).map fun dx : Nat => (pos.1 + (dx : Int), pos.2 + (dy : Int))

/-- The shared `set_tile` loop of `InfiniteScrolledMap::init` and
`set_pos`: for each (grid cell, logical position) pair, call the fetch
function at the logical position (appending it to the fetch log) and
write the fetched tile through `RegularMap::set_tile`. -/
def setTileLoop (get_tile : Int × Int → TileSetReference × Nat) :
    List ((Nat × Nat) × (Int × Int)) → RegularMap → VRamManager → List (Int × Int) →
    Option (RegularMap × VRamManager × List (Int × Int))
  | [], m, vram, log => some (m, vram, log)
  | (cell, pos) :: rest, m, vram, log =>
    let fetched := get_tile pos
    match m.set_tile vram cell fetched.1 fetched.2 with
    | some (m1, vram1) => setTileLoop get_tile rest m1 vram1 (log ++ [pos])
    | none => none

/-- The (grid cell, logical position) pairs `InfiniteScrolledMap::init`
visits: `y ∈ [y_start, y_end)` outer, `x ∈ [x_start, x_end)` inner, with
`x_start = floor(pos.x/8)`, `x_end = ceil((pos.x + WIDTH)/8) + 1` and
likewise for y. -/
def init_cells (pos : Int × Int) : List ((Nat × Nat) × (Int × Int)) :=
  let x_start := div_floor pos.1 8
  let y_start := div_floor pos.2 8
  let x_end := div_ceil (pos.1 + WIDTH) 8 + 1
  let y_end := div_ceil (pos.2 + HEIGHT) 8 + 1
  (List.range (y_end - y_start).toNat).flatMap fun y_idx =>
    (List.range (x_end - x_start).toNat).map fun x_idx =>
      (((x_idx : Nat), (y_idx : Nat)), (x_start + (x_idx : Int), y_start + (y_idx : Int)))

/-- `InfiniteScrolledMap::init`. Also returns the fetch-call log. -/
def InfiniteScrolledMap.init (s : InfiniteScrolledMap)
    (get_tile : Int × Int → TileSetReference × Nat) (vram : VRamManager)
    (pos : Int × Int) :
    Option (InfiniteScrolledMap × VRamManager × List (Int × Int)) :=
  let s := { s with current_pos := pos }
  let x_start := div_floor pos.1 8
  let y_start := div_floor pos.2 8
  match setTileLoop get_tile (init_cells pos) s.map vram [] with
  | none => none
  | some (m1, vram1, log) =>
    let off : Int × Int := (pos.1 - x_start * 8, pos.2 - y_start * 8)
    let offset_scroll : Nat × Nat := ((off.1 % (32 * 8)).toNat, (off.2 % (32 * 8)).toNat)
    some ({ s with
              map := { m1 with x_scroll := offset_scroll.1, y_scroll := offset_scroll.2 },
              offset := (x_start, y_start) },
          vram1, log)

/-- The leading-edge update rectangles of `InfiniteScrolledMap::set_pos`
(first the vertical column rectangle, then the horizontal row rectangle,
each as position and size). -/
def set_pos_rects (old_pos new_pos : Int × Int) :
    ((Int × Int) × (Int × Int)) × ((Int × Int) × (Int × Int)) :=
  let difference : Int × Int := (new_pos.1 - old_pos.1, new_pos.2 - old_pos.2)
  let new_tile_x := div_floor new_pos.1 8
  let new_tile_y := div_floor new_pos.2 8
  let difference_tile_x := div_ceil difference.1 8
  let difference_tile_y := div_ceil difference.2 8
  let vertical_rect : (Int × Int) × (Int × Int) :=
    if div_floor old_pos.1 8 ≠ new_tile_x then
      let direction := difference.1.sign
      let y_tiles_to_update : Int := 22
      let line_to_update := if direction < 0 then new_tile_x else new_tile_x + 30
      ((line_to_update, new_tile_y - 1), (difference_tile_x, y_tiles_to_update))
    else ((0, 0), (0, 0))
  let horizontal_rect : (Int × Int) × (Int × Int) :=
    if div_floor old_pos.2 8 ≠ new_tile_y then
      let direction := difference.2.sign
      let x_tiles_to_update : Int := 32
      let line_to_update := if direction < 0 then new_tile_y else new_tile_y + 20
      ((new_tile_x - 1, line_to_update), (x_tiles_to_update, difference_tile_y))
    else ((0, 0), (0, 0))
  (vertical_rect, horizontal_rect)

/-- The logical positions `set_pos` fetches: the vertical rectangle's
points followed by the horizontal rectangle's points. -/
def set_pos_points (old_pos new_pos : Int × Int) : List (Int × Int) :=
  rectIter (set_pos_rects old_pos new_pos).1.1 (set_pos_rects old_pos new_pos).1.2 ++
    rectIter (set_pos_rects old_pos new_pos).2.1 (set_pos_rects old_pos new_pos).2.2

/-- The (grid cell, logical position) pairs `set_pos` feeds to
`set_tile`: the grid cell wraps the position minus the grid origin
modulo 32 on both axes. -/
def set_pos_cells (offset old_pos new_pos : Int × Int) : List ((Nat × Nat) × (Int × Int)) :=
  (set_pos_points old_pos new_pos).map fun p =>
    (((((p.1 - offset.1) % 32).toNat, ((p.2 - offset.2) % 32).toNat)), p)

/-- `InfiniteScrolledMap::set_pos`. Also returns the fetch-call log. -/
def InfiniteScrolledMap.set_pos (s : InfiniteScrolledMap)
    (get_tile : Int × Int → TileSetReference × Nat) (vram : VRamManager)
    (new_pos : Int × Int) :
    Option (InfiniteScrolledMap × VRamManager × List (Int × Int)) :=
  let old_pos := s.current_pos
  let difference : Int × Int := (new_pos.1 - old_pos.1, new_pos.2 - old_pos.2)
  if difference.1.natAbs > 10 * 8 ∨ difference.2.natAbs > 10 * 8 then
    s.init get_tile vram new_pos
  else
    let s := { s with current_pos := new_pos }
    match setTileLoop get_tile (set_pos_cells s.offset old_pos new_pos) s.map vram [] with
    | none => none
    | some (m1, vram1, log) =>
      let new_scroll : Nat × Nat :=
        ((((m1.x_scroll : Int) + difference.1) % (32 * 8)).toNat,
         (((m1.y_scroll : Int) + difference.2) % (32 * 8)).toNat)
      some ({ s with map := { m1 with x_scroll := new_scroll.1, y_scroll := new_scroll.2 } },
            vram1, log)

/-- Modelled from the spec: `Bitarray` is not among the provided sources.
`first_zero` scans the 32 bits of the one-word bit array in order and
returns the first clear bit's index. -/
def first_zero_from (b : Nat) : Nat → Nat → Option Nat
  | _, 0 => none
  | i, fuel + 1 => if !b.testBit i then some i else first_zero_from b (i + 1) fuel

/-- Modelled from the spec: `Bitarray::first_zero` over the 32-bit
layer-in-use word. -/
def first_zero (b : Nat) : Option Nat :=
  first_zero_from b 0 32

/-- `Tiled0::background`: the layer-in-use word is `regular`; `none`
models the panic ("can only have 4 active backgrounds", or the `unwrap`
when every bit is set). Returns the new `RegularMap` and the updated
word. -/
def Tiled0.background (regular : Nat) (priority : Nat) : Option (RegularMap × Nat) :=
  match first_zero regular with
  | none => none
  | some new_background =>
    if 4 ≤ new_background then none
    else
      some (RegularMap.new new_background (new_background + 16) priority,
        regular ||| (1 <<< new_background))

/-- `MapLoan::drop` acting on the full display state: it only clears this
loan's bit in the layer-in-use word; the map's tile content and the
VRAM manager are not touched. -/
def MapLoan.drop (regular : Nat) (background_id : Nat) (map : RegularMap)
    (vram : VRamManager) : Nat × RegularMap × VRamManager :=
  (regular &&& ((2 ^ 32 - 1) ^^^ (1 <<< background_id)), map, vram)

/-- `ObjectMode` (2-bit field of attribute 0). -/
inductive ObjectMode where
  | normal
  | affine
  | disabled
  | affineDouble
deriving DecidableEq

/-- Bit code of an `ObjectMode`. -/
def ObjectMode.code : ObjectMode → Nat
  | .normal => 0
  | .affine => 1
  | .disabled => 2
  | .affineDouble => 3

/-- `GraphicsMode` (2-bit field of attribute 0). -/
inductive GraphicsMode where
  | normal
  | alphaBlending
  | window
deriving DecidableEq

/-- Bit code of a `GraphicsMode`. -/
def GraphicsMode.code : GraphicsMode → Nat
  | .normal => 0
  | .alphaBlending => 1
  | .window => 2

/-- `ColourMode` (1-bit field of attribute 0). -/
inductive ColourMode where
  | four
  | eight
deriving DecidableEq

/-- Bit code of a `ColourMode`. -/
def ColourMode.code : ColourMode → Nat
  | .four => 0
  | .eight => 1

/-- `ObjectAttribute0` bitfield: y (8 bits), object mode (2), graphics
mode (2), mosaic (1), colour mode (1), shape (2). -/
structure ObjectAttribute0 where
  y : Nat
  object_mode : ObjectMode
  graphics_mode : GraphicsMode
  mosaic : Bool
  colour_mode : ColourMode
  shape : Nat
deriving DecidableEq

/-- `ObjectAttribute0::new` (all-zero bit pattern). -/
def ObjectAttribute0.new : ObjectAttribute0 where
  y := 0
  object_mode := .normal
  graphics_mode := .normal
  mosaic := false
  colour_mode := .four
  shape := 0

/-- Packed 16-bit value of attribute 0 (`into_bytes` then transmute to
`u16`). -/
def ObjectAttribute0.into_bytes (a : ObjectAttribute0) : Nat :=
  a.y % 256 + a.object_mode.code * 256 + a.graphics_mode.code * 1024 +
    (if a.mosaic then 4096 else 0) + a.colour_mode.code * 8192 + (a.shape % 4) * 16384

/-- `ObjectAttribute1Standard` bitfield: x (9 bits), 3 skipped bits,
horizontal flip (1), vertical flip (1), size (2). -/
structure ObjectAttribute1Standard where
  x : Nat
  horizontal_flip : Bool
  vertical_flip : Bool
  size : Nat
deriving DecidableEq

/-- `ObjectAttribute1Standard::new`. -/
def ObjectAttribute1Standard.new : ObjectAttribute1Standard where
  x := 0
  horizontal_flip := false
  vertical_flip := false
  size := 0

/-- Packed 16-bit value of standard attribute 1. -/
def ObjectAttribute1Standard.into_bytes (a : ObjectAttribute1Standard) : Nat :=
  a.x % 512 + (if a.horizontal_flip then 4096 else 0) +
    (if a.vertical_flip then 8192 else 0) + (a.size % 4) * 16384

/-- `ObjectAttribute1Affine` bitfield: x (9 bits), affine index (5),
size (2). -/
structure ObjectAttribute1Affine where
  x : Nat
  affine_index : Nat
  size : Nat
deriving DecidableEq

/-- `ObjectAttribute1Affine::new`. -/
def ObjectAttribute1Affine.new : ObjectAttribute1Affine where
  x := 0
  affine_index := 0
  size := 0

/-- Packed 16-bit value of affine attribute 1. -/
def ObjectAttribute1Affine.into_bytes (a : ObjectAttribute1Affine) : Nat :=
  a.x % 512 + (a.affine_index % 32) * 512 + (a.size % 4) * 16384

/-- `ObjectAttribute2` bitfield: tile index (10 bits), priority (2),
palette bank (4). -/
structure ObjectAttribute2 where
  tile_index : Nat
  priority : Nat
  palete_bank : Nat
deriving DecidableEq

/-- `ObjectAttribute2::new`. -/
def ObjectAttribute2.new : ObjectAttribute2 where
  tile_index := 0
  priority := 0
  palete_bank := 0

/-- Packed 16-bit value of attribute 2. -/
def ObjectAttribute2.into_bytes (a : ObjectAttribute2) : Nat :=
  a.tile_index % 1024 + (a.priority % 4) * 1024 + (a.palete_bank % 16) * 4096

/-- `Attributes`: the shadow copy of one object's attribute registers. -/
structure Attributes where
  a0 : ObjectAttribute0
  a1s : ObjectAttribute1Standard
  a1a : ObjectAttribute1Affine
  a2 : ObjectAttribute2
deriving DecidableEq

/-- `Attributes::new`. -/
def Attributes.new : Attributes where
  a0 := ObjectAttribute0.new
  a1s := ObjectAttribute1Standard.new
  a1a := ObjectAttribute1Affine.new
  a2 := ObjectAttribute2.new

/-- `HIDDEN_VALUE: u16 = 0b10 << 8` (attribute 0 with object mode
`Disabled`). -/
def HIDDEN_VALUE : Nat := 512

/-- `Attributes::commit`: write the three packed attribute words of this
object at OAM word addresses `location * 4 + 0/1/2`; attribute 1 is the
standard or the affine variant depending on the object mode. -/
def Attributes.commitAt (attrs : Attributes) (location : Nat) (oam : Nat → Nat) :
    Nat → Nat :=
  let a1 := match attrs.a0.object_mode with
    | .normal => attrs.a1s.into_bytes
    | _ => attrs.a1a.into_bytes
  fun addr =>
    if addr = location * 4 then attrs.a0.into_bytes
    else if addr = location * 4 + 1 then a1
    else if addr = location * 4 + 2 then attrs.a2.into_bytes
    else oam addr

/-- `ObjectInner`: one live row of the shadow OAM. -/
structure ObjectInner where
  attrs : Attributes
  z : Int
deriving DecidableEq

/-- `Size` of a sprite (shape/size code pairs). -/
inductive Size where
  | s8x8 | s16x16 | s32x32 | s64x64
  | s16x8 | s32x8 | s32x16 | s64x32
  | s8x16 | s8x32 | s16x32 | s32x64
deriving DecidableEq

/-- `Size::number_of_tiles`. -/
def Size.number_of_tiles : Size → Nat
  | .s8x8 => 1
  | .s16x16 => 4
  | .s32x32 => 16
  | .s64x64 => 64
  | .s16x8 => 2
  | .s32x8 => 4
  | .s32x16 => 8
  | .s64x32 => 32
  | .s8x16 => 2
  | .s8x32 => 4
  | .s16x32 => 8
  | .s32x64 => 32

/-- `BYTES_PER_TILE_4BPP`. -/
def BYTES_PER_TILE_4BPP : Nat := 32

/-- `TILE_SPRITE`: base address of sprite tile memory. -/
def TILE_SPRITE : Nat := 0x06010000

/-- `PALETTE_SPRITE`: base address of sprite palette memory. -/
def PALETTE_SPRITE : Nat := 0x05000200

/-- A `Sprite` asset. `id` models the sprite's static address
(`SpriteId`), `palette` the palette's static address (`PaletteId`). -/
structure Sprite where
  id : Nat
  palette : Nat
  size : Size
deriving DecidableEq

/-- `Sprite::layout().size()`: bytes of sprite tile memory the asset
needs. -/
def Sprite.layoutSize (sp : Sprite) : Nat :=
  sp.size.number_of_tiles * BYTES_PER_TILE_4BPP

/-- `Storage`: one sprite/palette block-cache entry. -/
structure Storage where
  location : Nat
  count : Nat
deriving DecidableEq

/-- Modelled from the spec: the Block Allocator
(`agb_alloc::block_allocator::BlockAllocator`) is an external capability
not among the provided sources; §2 describes it as "a first-fit allocator
over two disjoint fixed address ranges ... returning opaque memory
handles and sizes". The state is the address-sorted list of allocated
`(address, size)` blocks; allocation returns the lowest gap of at least
`size` bytes below `stop`, starting the scan at `candidate`. -/
def allocFirstFit (stop size : Nat) : Nat → List (Nat × Nat) → Option (Nat × List (Nat × Nat))
  | candidate, [] =>
    if candidate + size ≤ stop then some (candidate, [(candidate, size)]) else none
  | candidate, (a, sz) :: rest =>
    if candidate + size ≤ a then some (candidate, (candidate, size) :: (a, sz) :: rest)
    else
      match allocFirstFit stop size (a + sz) rest with
      | some (addr, rest') => some (addr, (a, sz) :: rest')
      | none => none

/-- Modelled from the spec: freeing returns a block to the allocator; the
entry with the given address is removed from the allocated list. -/
def deallocBlock (addr : Nat) (allocated : List (Nat × Nat)) : List (Nat × Nat) :=
  allocated.filter fun p => p.1 ≠ addr

/-- `SpriteControllerInner` together with the state of the two static
block allocators (`SPRITE_ALLOCATOR` over 32 KiB of sprite tile memory,
`PALETTE_ALLOCATOR` over 0x200 bytes of sprite palette memory). -/
structure SpriteControllerInner where
  palette : List (Nat × Storage)
  sprite : List (Nat × Storage)
  sprite_allocator : List (Nat × Nat)
  palette_allocator : List (Nat × Nat)
deriving DecidableEq

/-- `SpriteControllerInner::new` with both allocators empty. -/
def SpriteControllerInner.new : SpriteControllerInner where
  palette := []
  sprite := []
  sprite_allocator := []
  palette_allocator := []

/-- `SpriteBorrow` (without its phantom lifetime). -/
structure SpriteBorrow where
  id : Nat
  sprite_location : Nat
  palette_location : Nat
deriving DecidableEq

/-- `SpriteControllerInner::palette`: resolve or allocate the palette
block for the given palette identity. Returns `none` (and the unchanged
state) exactly when the palette allocator has no room. -/
def SpriteControllerInner.getPalette (s : SpriteControllerInner) (palette : Nat) :
    Option Nat × SpriteControllerInner :=
  match alookup s.palette palette with
  | some storage =>
    let entry : Storage := { storage with count := (storage.count + 1) % 65536 }
    (some storage.location, { s with palette := ainsert s.palette palette entry })
  | none =>
    match allocFirstFit (PALETTE_SPRITE + 0x200) 32 PALETTE_SPRITE s.palette_allocator with
    | none => (none, s)
    | some (dest, allocd) =>
      let storage : Storage := { location := (dest - PALETTE_SPRITE) / 32, count := 1 }
      (some storage.location,
        { s with palette_allocator := allocd, palette := ainsert s.palette palette storage })

/-- `SpriteControllerInner::try_get_sprite`. `.ok (none, s)` is the
recoverable "no resource available" return; `.panicked` models the
`unwrap` on the cache-hit path. -/
def SpriteControllerInner.try_get_sprite (s : SpriteControllerInner) (sp : Sprite) :
    RustResult (Option SpriteBorrow × SpriteControllerInner) :=
  match alookup s.sprite sp.id with
  | some storage =>
    let entry : Storage := { storage with count := (storage.count + 1) % 65536 }
    let s1 := { s with sprite := ainsert s.sprite sp.id entry }
    match s1.getPalette sp.palette with
    | (some palette_location, s2) =>
      .ok (some { id := sp.id, sprite_location := storage.location,
                  palette_location := palette_location }, s2)
    | (none, _) => .panicked
  | none =>
    match allocFirstFit (TILE_SPRITE + 1024 * 8 * 4) sp.layoutSize TILE_SPRITE
        s.sprite_allocator with
    | none => .ok (none, s)
    | some (dest, allocd) =>
      let s1 := { s with sprite_allocator := allocd }
      match s1.getPalette sp.palette with
      | (none, s2) =>
        .ok (none, { s2 with sprite_allocator := deallocBlock dest s2.sprite_allocator })
      | (some palette_location, s2) =>
        let storage : Storage := { location := (dest - TILE_SPRITE) / BYTES_PER_TILE_4BPP,
                                   count := 1 }
        .ok (some { id := sp.id, sprite_location := storage.location,
                    palette_location := palette_location },
             { s2 with sprite := ainsert s2.sprite sp.id storage })

/-- `SpriteControllerInner::return_palette`. -/
def SpriteControllerInner.return_palette (s : SpriteControllerInner) (palette : Nat) :
    SpriteControllerInner :=
  match alookup s.palette palette with
  | some storage =>
    let c := (storage.count + 65535) % 65536
    if c = 0 then
      { s with
          palette_allocator :=
            deallocBlock (storage.location * 32 + PALETTE_SPRITE) s.palette_allocator,
          palette := aerase s.palette palette }
    else { s with palette := ainsert s.palette palette { storage with count := c } }
  | none => s

/-- `SpriteControllerInner::return_sprite` (also the body of
`SpriteBorrow::drop`). -/
def SpriteControllerInner.return_sprite (s : SpriteControllerInner) (sp : Sprite) :
    SpriteControllerInner :=
  let s1 := match alookup s.sprite sp.id with
    | some storage =>
      let c := (storage.count + 65535) % 65536
      if c = 0 then
        { s with
            sprite_allocator :=
              deallocBlock (storage.location * BYTES_PER_TILE_4BPP + TILE_SPRITE)
                s.sprite_allocator,
            sprite := aerase s.sprite sp.id }
      else { s with sprite := ainsert s.sprite sp.id { storage with count := c } }
    | none => s
  s1.return_palette sp.palette

/-- `ObjectController::sprite`: the panicking convenience wrapper around
`try_get_sprite` (`expect("No slot for sprite available")`). -/
def ObjectController.sprite (s : SpriteControllerInner) (sp : Sprite) :
    RustResult (SpriteBorrow × SpriteControllerInner) :=
  match s.try_get_sprite sp with
  | .ok (some b, s1) => .ok (b, s1)
  | .ok (none, _) => .panicked
  | .panicked => .panicked

/-- `ObjectControllerStatic`: the shadow OAM pool, its free-row and
free-affine-matrix stacks, the z-order index, and the sprite cache. -/
structure ObjectControllerStatic where
  free_affine_matricies : List Nat
  free_object : List Nat
  shadow_oam : List (Option ObjectInner)
  z_order : List Nat
  sprite_controller : SpriteControllerInner
deriving DecidableEq

/-- `ObjectControllerStatic::new`. -/
def ObjectControllerStatic.new : ObjectControllerStatic where
  free_affine_matricies := List.range 32
  free_object := List.range 128
  shadow_oam := List.replicate 128 none
  z_order := List.range 128
  sprite_controller := SpriteControllerInner.new

/-- The sort key of `update_z_ordering`: a live row's z, `i32::MAX` for a
free row. -/
def zkey (shadow : List (Option ObjectInner)) (a : Nat) : Int :=
  match shadow.getD a none with
  | some o => o.z
  | none => 2147483647

/-- `ObjectControllerStatic::update_z_ordering`: stable-sort the z-order
index by each row's key. `none` models the indexing panic inside the key
closure on an out-of-range row index. -/
def ObjectControllerStatic.update_z_ordering (s : ObjectControllerStatic) :
    Option ObjectControllerStatic :=
  if s.z_order.all (· < s.shadow_oam.length) then
    some { s with
      z_order := List.insertionSort
        (fun a b => zkey s.shadow_oam a ≤ zkey s.shadow_oam b) s.z_order }
  else none

/-- The row loop of `ObjectController::commit`: for each rank `i` (in
z-order-index order), write the row's packed attributes at OAM position
`i` if it is live, otherwise write `HIDDEN_VALUE` to the first attribute
word at position `i`. -/
def commitCells (shadow : List (Option ObjectInner)) :
    List Nat → Nat → (Nat → Nat) → (Nat → Nat)
  | [], _, oam => oam
  | z :: rest, i, oam =>
    commitCells shadow rest (i + 1)
      (match shadow.getD z none with
       | some o => Attributes.commitAt o.attrs i oam
       | none => fun a => if a = i * 4 then HIDDEN_VALUE else oam a)

/-- `ObjectController::commit` acting on the OAM memory (a map from word
addresses to 16-bit values). `none` models the indexing panic on an
out-of-range z-order entry. -/
def ObjectController.commit (s : ObjectControllerStatic) (oam : Nat → Nat) :
    Option (Nat → Nat) :=
  if s.z_order.all (· < s.shadow_oam.length) then
    some (commitCells s.shadow_oam s.z_order 0 oam)
  else none

/-- `ObjectAttribute1Standard::set_x` (checked 9-bit bitfield setter:
storing an out-of-range value is a panic). -/
def ObjectAttribute1Standard.set_x (a : ObjectAttribute1Standard) (v : Nat) :
    Option ObjectAttribute1Standard :=
  if v < 512 then some { a with x := v } else none

/-- `ObjectAttribute1Affine::set_x` (checked 9-bit bitfield setter). -/
def ObjectAttribute1Affine.set_x (a : ObjectAttribute1Affine) (v : Nat) :
    Option ObjectAttribute1Affine :=
  if v < 512 then some { a with x := v } else none

/-- `ObjectAttribute0::set_y` (8-bit bitfield setter; the argument is
already a `u8`). -/
def ObjectAttribute0.set_y (a : ObjectAttribute0) (v : Nat) :
    Option ObjectAttribute0 :=
  if v < 256 then some { a with y := v } else none

/-- `Object::set_x` acting on the object's shadow attributes:
`x.rem_euclid(1 << 9)` is stored in both attribute-1 variants. -/
def Object.set_x (attrs : Attributes) (x : Nat) : Option Attributes :=
  match attrs.a1a.set_x (x % 512) with
  | none => none
  | some a1a1 =>
    match attrs.a1s.set_x (x % 512) with
    | none => none
    | some a1s1 => some { attrs with a1a := a1a1, a1s := a1s1 }

/-- `Object::set_y` acting on the object's shadow attributes: the
argument is truncated by the `y as u8` cast. -/
def Object.set_y (attrs : Attributes) (y : Nat) : Option Attributes :=
  match attrs.a0.set_y (y % 256) with
  | none => none
  | some a01 => some { attrs with a0 := a01 }

/-- `Object::set_position` acting on the object's shadow attributes:
`position.y as u8` and `position.x.rem_euclid(1 << 9)` (Rust
`rem_euclid` on `i32` is Lean `%` on `Int`). -/
def Object.set_position (attrs : Attributes) (position : Int × Int) : Option Attributes :=
  match attrs.a0.set_y (position.2 % 256).toNat with
  | none => none
  | some a01 =>
    match attrs.a1a.set_x (position.1 % 512).toNat with
    | none => none
    | some a1a1 =>
      match attrs.a1s.set_x (position.1 % 512).toNat with
      | none => none
      | some a1s1 => some { attrs with a0 := a01, a1a := a1a1, a1s := a1s1 }

/-- `N` successive `add_tile` calls with the same pair, collecting the
returned indices. -/
def addTileTimes : Nat → VRamManager → TileSetReference → Nat → Option (List Nat × VRamManager)
  | 0, m, _, _ => some ([], m)
  | n + 1, m, r, t =>
    match m.add_tile r t with
    | some (idx, m1) =>
      match addTileTimes n m1 r t with
      | some (idxs, m2) => some (idx :: idxs, m2)
      | none => none
    | none => none

/-- `N` successive `remove_tile` calls on the same index. -/
def removeTileTimes : Nat → VRamManager → Nat → Option VRamManager
  | 0, m, _ => some m
  | n + 1, m, idx =>
    match m.remove_tile idx with
    | some m1 => removeTileTimes n m1 idx
    | none => none

/-- The head of the VRAM free list is either absent or points at a `Free`
slot (the well-formedness `add_tile` relies on when allocating). -/
def VRamManager.freeHeadOk (m : VRamManager) : Bool :=
  match m.vram_free_pointer with
  | none => true
  | some ptr =>
    match m.references.get? ptr with
    | some (.free _) => true
    | _ => false

/-- One call of a tileset-arena trace. -/
inductive ArenaOp where
  | add (tileset : TileSet)
  | remove (r : TileSetReference)

/-- Run a sequence of `add_tileset`/`remove_tileset` calls, tracking the
set of live (issued and not yet removed) references. -/
def runArena : VRamManager → List TileSetReference → List ArenaOp →
    Option (VRamManager × List TileSetReference)
  | m, live, [] => some (m, live)
  | m, live, .add ts :: rest =>
    match m.add_tileset ts with
    | some (r, m1) => runArena m1 (r :: live) rest
    | none => none
  | m, live, .remove r :: rest =>
    match m.remove_tileset r with
    | some m1 => runArena m1 (live.filter fun q => q ≠ r) rest
    | none => none

/-- A shadow-OAM row holding only a distinguishing sprite tile index and
a z value (all other attributes as freshly initialised). -/
def exampleRow (tile : Nat) (z : Int) : ObjectInner where
  attrs := { Attributes.new with a2 := { ObjectAttribute2.new with tile_index := tile } }
  z := z

/-- The controller state after acquiring three objects (rows 127, 126,
125, popped from the free-row stack in that order) with z values 5, 1, 3
and sprite tile indices 10, 20, 30 respectively. -/
def exampleController : ObjectControllerStatic :=
  { ObjectControllerStatic.new with
      free_object := List.range 125,
      shadow_oam := List.replicate 125 none ++
        [some (exampleRow 30 3), some (exampleRow 20 1), some (exampleRow 10 5)] }

/-- A freshly initialised scrolled map sitting at pixel position (7, 0):
one pixel left of the tile boundary at x = 8. -/
def exampleScroll : InfiniteScrolledMap :=
  ⟨RegularMap.new 0 16 0, (7, 0), (0, 0)⟩

/-- A fetch closure that always yields the transparent tile setting 0 of
tileset slot 0 (so `set_tile` leaves the map and VRAM untouched). -/
def zeroTile : Int × Int → TileSetReference × Nat :=
  fun _ => (⟨0, 0⟩, 0)

/-- The result of moving `exampleScroll` one pixel right (to x = 8),
crossing a tile boundary: the map scrolls by one pixel and the fetch log
holds the 22 cells of the newly exposed column x = 31. -/
def exampleScrollOut : InfiniteScrolledMap × VRamManager × List (Int × Int) :=
  (⟨{ RegularMap.new 0 16 0 with x_scroll := 1 }, (8, 0), (0, 0)⟩,
   VRamManager.new,
   (List.range 22).map fun k : Nat => ((31 : Int), (-1 : Int) + (k : Int)))

theorem lget_set_self {α : Type} (l : List α) (i : Nat) (v : α) (h : i < l.length) :
    (l.set i v).get? i = some v := by
  induction l generalizing i with
  | nil => simp at h
  | cons x xs ih =>
    cases i with
    | zero => rfl
    | succ n => exact ih n (Nat.lt_of_succ_lt_succ h)

theorem lget_set_ne {α : Type} (l : List α) (i j : Nat) (v : α) (h : i ≠ j) :
    (l.set i v).get? j = l.get? j := by
  induction l generalizing i j with
  | nil => rfl
  | cons x xs ih =>
    cases i with
    | zero =>
      cases j with
      | zero => exact absurd rfl h
      | succ m => rfl
    | succ n =>
      cases j with
      | zero => rfl
      | succ m => exact ih n m (fun hh => h (by rw [hh]))

theorem lset_of_get {α : Type} (l : List α) (i : Nat) (v : α) (h : l.get? i = some v) :
    l.set i v = l := by
  induction l generalizing i with
  | nil => rfl
  | cons x xs ih =>
    cases i with
    | zero =>
      simp only [List.get?] at h
      cases h
      rfl
    | succ n => exact congrArg (x :: ·) (ih n h)

theorem alookup_aerase_self {κ β : Type} [DecidableEq κ] (l : List (κ × β)) (k : κ) :
    alookup (aerase l k) k = none := by
  induction l with
  | nil => rfl
  | cons p rest ih =>
    obtain ⟨k', v⟩ := p
    by_cases h : k' = k
    · simp [aerase, h, ih]
    · simp [aerase, h, alookup, ih]

theorem alookup_ainsert_self {κ β : Type} [DecidableEq κ] (l : List (κ × β)) (k : κ) (v : β) :
    alookup (ainsert l k v) k = some v := by
  simp [ainsert, alookup]

/-- C10: for every object and every input coordinate, `set_x` and
`set_position` store the x coordinate reduced modulo 512 (the 9-bit
hardware x field) and `set_y` and `set_position` store the y coordinate
truncated modulo 256 (the 8-bit hardware y field), so out-of-range
coordinates wrap rather than fail. -/
theorem spec_c10_position_wrapping (attrs : Attributes) (x y : Nat) (position : Int × Int) :
    (∃ a1, Object.set_x attrs x = some a1 ∧ a1.a1s.x = x % 512 ∧ a1.a1a.x = x % 512) ∧
    (∃ a2, Object.set_y attrs y = some a2 ∧ a2.a0.y = y % 256) ∧
    (∃ a3, Object.set_position attrs position = some a3 ∧
      a3.a1s.x = (position.1 % 512).toNat ∧ a3.a1a.x = (position.1 % 512).toNat ∧
      a3.a0.y = (position.2 % 256).toNat) := by
  have hx : x % 512 < 512 := Nat.mod_lt _ (by omega)
  have hy : y % 256 < 256 := Nat.mod_lt _ (by omega)
  have hpx : (position.1 % 512).toNat < 512 := by
    have h1 : 0 ≤ position.1 % 512 := Int.emod_nonneg _ (by omega)
    have h2 : position.1 % 512 < 512 := Int.emod_lt_of_pos _ (by omega)
    omega
  have hpy : (position.2 % 256).toNat < 256 := by
    have h1 : 0 ≤ position.2 % 256 := Int.emod_nonneg _ (by omega)
    have h2 : position.2 % 256 < 256 := Int.emod_lt_of_pos _ (by omega)
    omega
  have e1 : Object.set_x attrs x =
      some { attrs with a1a := { attrs.a1a with x := x % 512 },
                        a1s := { attrs.a1s with x := x % 512 } } := by
    simp [Object.set_x, ObjectAttribute1Affine.set_x, ObjectAttribute1Standard.set_x, hx]
  have e2 : Object.set_y attrs y = some { attrs with a0 := { attrs.a0 with y := y % 256 } } := by
    simp [Object.set_y, ObjectAttribute0.set_y, hy]
  have e3 : Object.set_position attrs position =
      some { attrs with a0 := { attrs.a0 with y := (position.2 % 256).toNat },
                        a1a := { attrs.a1a with x := (position.1 % 512).toNat },
                        a1s := { attrs.a1s with x := (position.1 % 512).toNat } } := by
    simp [Object.set_position, ObjectAttribute0.set_y, ObjectAttribute1Affine.set_x,
      ObjectAttribute1Standard.set_x, hpx, hpy]
  exact ⟨⟨_, e1, rfl, rfl⟩, ⟨_, e2, rfl⟩, ⟨_, e3, rfl, rfl, rfl⟩⟩

/-- C5: the claim says `clear` releases only non-empty cells and performs
no refcount operation on cells that are already empty. The code instead
calls `remove_tile(tile.tile_index())` on every cell unconditionally, so
clearing a freshly created map (all cells empty) decrements the
never-allocated sentinel slot 0 and hits the "Corrupted vram state"
panic inside `decrease_reference`. -/
theorem spec_c5_clear_refcounts_empty_cells :
    RegularMap.clear (RegularMap.new 0 16 0) VRamManager.new = none := by
  rfl

theorem first_zero_from_spec (b : Nat) :
    ∀ (fuel i k : Nat), k < fuel →
      (∀ j, j < k → b.testBit (i + j) = true) →
      b.testBit (i + k) = false →
      first_zero_from b i fuel = some (i + k) := by
  intro fuel
  induction fuel with
  | zero => intro i k hk _ _; exact absurd hk (Nat.not_lt_zero k)
  | succ n ih =>
    intro i k hk hlow hbit
    cases k with
    | zero =>
      have hb : b.testBit i = false := by simpa using hbit
      simp [first_zero_from, hb]
    | succ k' =>
      have h0 : b.testBit i = true := by simpa using hlow 0 (Nat.succ_pos k')
      have step : first_zero_from b i (n + 1) = first_zero_from b (i + 1) n := by
        simp [first_zero_from, h0]
      rw [step, show i + (k' + 1) = i + 1 + k' by omega]
      exact ih (i + 1) k' (by omega)
        (fun j hj => by
          have h := hlow (j + 1) (by omega)
          rw [show i + 1 + j = i + (j + 1) by omega]
          exact h)
        (by rw [show i + 1 + k' = i + (k' + 1) by omega]; exact hbit)

theorem first_zero_from_bit (b : Nat) :
    ∀ (fuel i r : Nat), first_zero_from b i fuel = some r → b.testBit r = false := by
  intro fuel
  induction fuel with
  | zero => intro i r h; exact absurd h (by simp [first_zero_from])
  | succ n ih =>
    intro i r h
    by_cases hb : b.testBit i
    · rw [show first_zero_from b i (n + 1) = first_zero_from b (i + 1) n by
        simp [first_zero_from, hb]] at h
      exact ih _ _ h
    · have hr : i = r := by simpa [first_zero_from, hb] using h
      rw [← hr]
      simpa using hb

/-- C6: at most 4 background layer leases can be live at once. Acquiring
a background while a layer id below 4 is unused succeeds with the lowest
unused id and marks it in use; when ids 0..3 are all in use the
acquisition fails fatally; `MapLoan::drop` clears exactly its own
layer-in-use bit, leaving tile content and referenced VRAM untouched. -/
theorem spec_c6_background_lease_cap :
    (∀ (regular priority i : Nat), i < 4 → regular.testBit i = false →
      (∀ j, j < i → regular.testBit j = true) →
      Tiled0.background regular priority =
        some (RegularMap.new i (i + 16) priority, regular ||| (1 <<< i)) ∧
      (regular ||| (1 <<< i)).testBit i = true) ∧
    (∀ (regular priority : Nat), (∀ i, i < 4 → regular.testBit i = true) →
      Tiled0.background regular priority = none) ∧
    (∀ (regular background_id : Nat) (map : RegularMap) (vram : VRamManager) (j : Nat),
      j < 32 →
      ((MapLoan.drop regular background_id map vram).1.testBit j =
        (regular.testBit j && decide (j ≠ background_id))) ∧
      (MapLoan.drop regular background_id map vram).2.1 = map ∧
      (MapLoan.drop regular background_id map vram).2.2 = vram) := by
  refine ⟨?_, ?_, ?_⟩
  · intro regular priority i hi hbit hlow
    have hz : first_zero regular = some i := by
      have h := first_zero_from_spec regular 32 0 i (by omega)
        (fun j hj => by simpa using hlow j hj) (by simpa using hbit)
      simpa [first_zero] using h
    constructor
    · simp [Tiled0.background, hz, show ¬ 4 ≤ i by omega]
    · rw [Nat.testBit_or, show (1 : Nat) <<< i = 2 ^ i by rw [Nat.shiftLeft_eq, one_mul],
        Nat.testBit_two_pow]
      simp
  · intro regular priority hall
    cases hz : first_zero regular with
    | none => simp [Tiled0.background, hz]
    | some r =>
      have hrf : regular.testBit r = false :=
        first_zero_from_bit regular 32 0 r (by simpa [first_zero] using hz)
      have hr4 : 4 ≤ r := by
        by_contra hlt
        rw [hall r (by omega)] at hrf
        simp at hrf
      simp [Tiled0.background, hz, hr4]
  · intro regular background_id map vram j hj
    refine ⟨?_, rfl, rfl⟩
    simp only [MapLoan.drop]
    rw [Nat.testBit_and, Nat.testBit_xor, Nat.testBit_two_pow_sub_one,
      show (1 : Nat) <<< background_id = 2 ^ background_id by rw [Nat.shiftLeft_eq, one_mul],
      Nat.testBit_two_pow]
    by_cases h : j = background_id
    · subst h
      simp [hj]
    · simp [h, hj, Ne.symm h]

theorem spec_c6_background_lease_cap_witness :
    (Tiled0.background 0 0 = some (RegularMap.new 0 16 0, 0 ||| (1 <<< 0)) ∧
      ((0 : Nat) ||| (1 <<< 0)).testBit 0 = true) ∧
    Tiled0.background 15 0 = none ∧
    (((MapLoan.drop 15 2 (RegularMap.new 2 18 0) VRamManager.new).1.testBit 2 =
        ((15 : Nat).testBit 2 && decide (2 ≠ 2))) ∧
      (MapLoan.drop 15 2 (RegularMap.new 2 18 0) VRamManager.new).2.1 = RegularMap.new 2 18 0 ∧
      (MapLoan.drop 15 2 (RegularMap.new 2 18 0) VRamManager.new).2.2 = VRamManager.new) :=
  ⟨spec_c6_background_lease_cap.1 0 0 0 (by decide) (by decide) (by decide),
   spec_c6_background_lease_cap.2.1 15 0 (by decide),
   spec_c6_background_lease_cap.2.2 15 2 (RegularMap.new 2 18 0) VRamManager.new 2 (by decide)⟩

theorem screenblockWrite_eq (tiles : List Nat) :
    ∀ (ids : List Nat) (mem : Nat → Nat) (a : Nat),
      screenblockWrite tiles ids mem a = if a ∈ ids then tiles.getD a 0 else mem a := by
  intro ids
  induction ids with
  | nil => intro mem a; simp [screenblockWrite]
  | cons id rest ih =>
    intro mem a
    rw [screenblockWrite, ih]
    by_cases hmem : a ∈ rest
    · simp [hmem]
    · by_cases hid : a = id
      · subst hid
        simp [hmem]
      · simp [hmem, hid]

theorem commit_ids_mem (m : RegularMap) (a : Nat) :
    a ∈ m.commit_ids ↔
      ∃ x y : Nat, m.x_scroll / 8 ≤ x ∧
        x < (div_ceil ((m.x_scroll : Int) + WIDTH) 8).toNat % 65536 + 1 ∧
        m.y_scroll / 8 ≤ y ∧
        y < (div_ceil ((m.y_scroll : Int) + HEIGHT) 8).toNat % 65536 + 1 ∧
        a = (y % 32) * 32 + x % 32 := by
  simp only [RegularMap.commit_ids, List.mem_flatMap, List.mem_map, List.mem_range]
  constructor
  · rintro ⟨dy, hdy, dx, hdx, rfl⟩
    exact ⟨m.x_scroll / 8 + dx, m.y_scroll / 8 + dy, by omega, by omega, by omega, by omega, rfl⟩
  · rintro ⟨x, y, hx1, hx2, hy1, hy2, rfl⟩
    refine ⟨y - m.y_scroll / 8, by omega, x - m.x_scroll / 8, by omega, ?_⟩
    rw [show m.y_scroll / 8 + (y - m.y_scroll / 8) = y from by omega,
      show m.x_scroll / 8 + (x - m.x_scroll / 8) = x from by omega]

/-- C8: `RegularMap::commit` always rewrites the three scroll/control
registers; it rewrites screenblock memory only when the dirty flag is
set, and then writes exactly the cells covering the visible viewport
plus the guard border (floor of the left/top edge to ceil-plus-one of
the right/bottom edge, in tiles), wrapped modulo 32 on both axes; cells
outside that window keep their previous contents, and the dirty flag is
cleared afterwards. -/
theorem spec_c8_commit_window (m : RegularMap) (mem : Nat → Nat) :
    (m.commit mem).2.1 = (Nat.lor m.priority (m.screenblock <<< 8), m.x_scroll, m.y_scroll) ∧
    (m.tiles_dirty = false → (m.commit mem).2.2 = mem ∧ (m.commit mem).1 = m) ∧
    (m.tiles_dirty = true →
      (m.commit mem).1 = { m with tiles_dirty := false } ∧
      (∀ a, (∃ x y : Nat, m.x_scroll / 8 ≤ x ∧
          x < (div_ceil ((m.x_scroll : Int) + WIDTH) 8).toNat % 65536 + 1 ∧
          m.y_scroll / 8 ≤ y ∧
          y < (div_ceil ((m.y_scroll : Int) + HEIGHT) 8).toNat % 65536 + 1 ∧
          a = (y % 32) * 32 + x % 32) →
        (m.commit mem).2.2 a = m.tiles.getD a 0) ∧
      (∀ a, (¬ ∃ x y : Nat, m.x_scroll / 8 ≤ x ∧
          x < (div_ceil ((m.x_scroll : Int) + WIDTH) 8).toNat % 65536 + 1 ∧
          m.y_scroll / 8 ≤ y ∧
          y < (div_ceil ((m.y_scroll : Int) + HEIGHT) 8).toNat % 65536 + 1 ∧
          a = (y % 32) * 32 + x % 32) →
        (m.commit mem).2.2 a = mem a)) := by
  cases hd : m.tiles_dirty with
  | false =>
    refine ⟨by simp [RegularMap.commit, hd], fun _ => ⟨by simp [RegularMap.commit, hd],
      by simp [RegularMap.commit, hd]⟩, fun hcontra => absurd hcontra (by simp)⟩
  | true =>
    refine ⟨by simp [RegularMap.commit, hd], fun hcontra => absurd hcontra (by simp), fun _ => ?_⟩
    refine ⟨by simp [RegularMap.commit, hd], ?_, ?_⟩
    · intro a ha
      have hmem : a ∈ m.commit_ids := (commit_ids_mem m a).mpr ha
      simp only [RegularMap.commit, hd, if_true]
      rw [screenblockWrite_eq, if_pos hmem]
    · intro a ha
      have hmem : a ∉ m.commit_ids := fun hc => ha ((commit_ids_mem m a).mp hc)
      simp only [RegularMap.commit, hd, if_true]
      rw [screenblockWrite_eq, if_neg hmem]

theorem spec_c8_commit_window_witness :
    (((RegularMap.new 2 18 1).commit fun _ => 9).2.1 =
      (Nat.lor (RegularMap.new 2 18 1).priority ((RegularMap.new 2 18 1).screenblock <<< 8),
        (RegularMap.new 2 18 1).x_scroll, (RegularMap.new 2 18 1).y_scroll)) ∧
    (((RegularMap.new 2 18 1).commit fun _ => 9).1 =
      { RegularMap.new 2 18 1 with tiles_dirty := false }) :=
  ⟨(spec_c8_commit_window (RegularMap.new 2 18 1) (fun _ => 9)).1,
   ((spec_c8_commit_window (RegularMap.new 2 18 1) (fun _ => 9)).2.2 (by decide)).1⟩

theorem commitStep_ne (shadow : List (Option ObjectInner)) (z i : Nat) (oam : Nat → Nat)
    (a : Nat) (h0 : a ≠ i * 4) (h1 : a ≠ i * 4 + 1) (h2 : a ≠ i * 4 + 2) :
    (match shadow.getD z none with
     | some o => Attributes.commitAt o.attrs i oam
     | none => fun x => if x = i * 4 then HIDDEN_VALUE else oam x) a = oam a := by
  cases hz : shadow.getD z none with
  | some o =>
    simp only [Attributes.commitAt]
    rw [if_neg h0, if_neg h1, if_neg h2]
  | none => exact if_neg h0

theorem commitCells_lt (shadow : List (Option ObjectInner)) :
    ∀ (zs : List Nat) (i : Nat) (oam : Nat → Nat) (a : Nat), a < 4 * i →
      commitCells shadow zs i oam a = oam a := by
  intro zs
  induction zs with
  | nil => intro i oam a _; rfl
  | cons z rest ih =>
    intro i oam a h
    rw [commitCells, ih (i + 1) _ a (by omega)]
    exact commitStep_ne shadow z i oam a (by omega) (by omega) (by omega)

theorem commitCells_rank (shadow : List (Option ObjectInner)) :
    ∀ (zs : List Nat) (i j : Nat) (oam : Nat → Nat), j < zs.length →
      (match shadow.getD (zs.getD j 0) none with
       | some o =>
         commitCells shadow zs i oam ((i + j) * 4) = o.attrs.a0.into_bytes ∧
         commitCells shadow zs i oam ((i + j) * 4 + 1) =
           (match o.attrs.a0.object_mode with
            | .normal => o.attrs.a1s.into_bytes
            | _ => o.attrs.a1a.into_bytes) ∧
         commitCells shadow zs i oam ((i + j) * 4 + 2) = o.attrs.a2.into_bytes
       | none =>
         commitCells shadow zs i oam ((i + j) * 4) = HIDDEN_VALUE ∧
         commitCells shadow zs i oam ((i + j) * 4 + 1) = oam ((i + j) * 4 + 1) ∧
         commitCells shadow zs i oam ((i + j) * 4 + 2) = oam ((i + j) * 4 + 2)) := by
  intro zs
  induction zs with
  | nil => intro i j oam h; exact absurd h (by simp)
  | cons z rest ih =>
    intro i j oam h
    cases j with
    | zero =>
      simp only [Nat.add_zero, List.getD_cons_zero]
      cases hz : shadow.getD z none with
      | some o =>
        refine ⟨?_, ?_, ?_⟩ <;>
          · rw [commitCells, commitCells_lt shadow rest (i + 1) _ _ (by omega), hz]
            simp [Attributes.commitAt]
      | none =>
        refine ⟨?_, ?_, ?_⟩ <;>
          · rw [commitCells, commitCells_lt shadow rest (i + 1) _ _ (by omega), hz]
            simp
    | succ j' =>
      have h' : j' < rest.length := by simpa using h
      have ihh := ih (i + 1) j'
        (match shadow.getD z none with
         | some o => Attributes.commitAt o.attrs i oam
         | none => fun x => if x = i * 4 then HIDDEN_VALUE else oam x) h'
      rw [show (z :: rest).getD (j' + 1) 0 = rest.getD j' 0 from rfl]
      rw [show (i + (j' + 1)) * 4 = (i + 1 + j') * 4 from by omega]
      have hstep : ∀ k, k ≤ 2 →
          (match shadow.getD z none with
           | some o => Attributes.commitAt o.attrs i oam
           | none => fun x => if x = i * 4 then HIDDEN_VALUE else oam x)
            ((i + 1 + j') * 4 + k) = oam ((i + 1 + j') * 4 + k) :=
        fun k _ => commitStep_ne shadow z i oam _ (by omega) (by omega) (by omega)
      cases hz : shadow.getD (rest.getD j' 0) none with
      | some o =>
        rw [hz] at ihh
        rw [commitCells]
        exact ihh
      | none =>
        rw [hz] at ihh
        rw [commitCells]
        refine ⟨ihh.1, ?_, ?_⟩
        · rw [ihh.2.1]
          have := hstep 1 (by omega)
          simpa using this
        · rw [ihh.2.2]
          have := hstep 2 (by omega)
          simpa using this

set_option maxRecDepth 40000 in
/-- C2 (amended): `ObjectController::commit` writes all 128 hardware
rows once per call, in the order of the sorted z-order index (so objects
given z values 5, 1, 3 land at hardware rows 0, 1, 2 in ascending z
order 1, 3, 5); a rank holding a live record gets that record's three
packed attribute words, while a rank whose row is free gets the hidden
sentinel written to its first attribute word only — the row's remaining
two attribute words keep whatever the memory previously held (the
disabled object mode makes the hardware ignore them). -/
theorem spec_c2_commit_rows :
    (∀ (s : ObjectControllerStatic) (oam : Nat → Nat),
      s.z_order.length = 128 →
      (∀ z ∈ s.z_order, z < s.shadow_oam.length) →
      ∃ oam1, ObjectController.commit s oam = some oam1 ∧
        ∀ j, j < 128 →
          (match s.shadow_oam.getD (s.z_order.getD j 0) none with
           | some o =>
             oam1 (j * 4) = o.attrs.a0.into_bytes ∧
             oam1 (j * 4 + 1) =
               (match o.attrs.a0.object_mode with
                | .normal => o.attrs.a1s.into_bytes
                | _ => o.attrs.a1a.into_bytes) ∧
             oam1 (j * 4 + 2) = o.attrs.a2.into_bytes
           | none =>
             oam1 (j * 4) = HIDDEN_VALUE ∧
             oam1 (j * 4 + 1) = oam (j * 4 + 1) ∧
             oam1 (j * 4 + 2) = oam (j * 4 + 2))) ∧
    (∀ (s s1 : ObjectControllerStatic), s.update_z_ordering = some s1 →
      List.Sorted (fun a b => zkey s.shadow_oam a ≤ zkey s.shadow_oam b) s1.z_order ∧
      s1.z_order.Perm s.z_order ∧ s1.shadow_oam = s.shadow_oam) ∧
    (((exampleController.update_z_ordering.bind
        fun s1 => ObjectController.commit s1 fun _ => 7).map
        fun mem => (mem 2, mem 6, mem 10, mem 12)) = some (20, 30, 10, HIDDEN_VALUE)) := by
  refine ⟨?_, ?_, by decide⟩
  · intro s oam h128 hlt
    have hall : s.z_order.all (· < s.shadow_oam.length) = true := by
      rw [List.all_eq_true]
      intro z hz
      exact decide_eq_true (hlt z hz)
    refine ⟨commitCells s.shadow_oam s.z_order 0 oam,
      by simp [ObjectController.commit, hall], ?_⟩
    intro j hj
    have h := commitCells_rank s.shadow_oam s.z_order 0 j oam (by omega)
    simpa using h
  · intro s s1 h
    unfold ObjectControllerStatic.update_z_ordering at h
    by_cases hc : s.z_order.all (· < s.shadow_oam.length)
    · rw [if_pos hc] at h
      cases h
      haveI : IsTotal Nat fun a b => zkey s.shadow_oam a ≤ zkey s.shadow_oam b :=
        ⟨fun a b => le_total _ _⟩
      haveI : IsTrans Nat fun a b => zkey s.shadow_oam a ≤ zkey s.shadow_oam b :=
        ⟨fun _ _ _ hab hbc => le_trans hab hbc⟩
      exact ⟨List.sorted_insertionSort _ _, List.perm_insertionSort _ _, rfl⟩
    · rw [if_neg hc] at h
      exact absurd h (by simp)

set_option maxRecDepth 40000 in
theorem spec_c2_commit_rows_witness :
    (ObjectController.commit ObjectControllerStatic.new fun _ => 3).isSome = true ∧
    List.Sorted
      (fun a b => zkey ObjectControllerStatic.new.shadow_oam a ≤
        zkey ObjectControllerStatic.new.shadow_oam b)
      ObjectControllerStatic.new.z_order := by
  constructor
  · obtain ⟨oam1, h, -⟩ :=
      spec_c2_commit_rows.1 ObjectControllerStatic.new (fun _ => 3) (by decide) (by decide)
    rw [h]
    rfl
  · exact (spec_c2_commit_rows.2.1 ObjectControllerStatic.new ObjectControllerStatic.new
      (by decide)).1

set_option maxRecDepth 40000 in
/-- C2 counterexample to the claim as stated: committing with every row
free does not write a "full sentinel pattern"; only the first attribute
word of each row is written (to `HIDDEN_VALUE`), and the second and
third words keep their stale previous contents (here 7). -/
theorem spec_c2_stale_words_counterexample :
    ((ObjectController.commit ObjectControllerStatic.new fun _ => 7).map
      fun mem => (mem 0, mem 1, mem 2)) = some (HIDDEN_VALUE, 7, 7) := by
  decide

theorem allocFirstFit_dealloc :
    ∀ (l : List (Nat × Nat)) (candidate stop size dest : Nat) (l1 : List (Nat × Nat)),
      allocFirstFit stop size candidate l = some (dest, l1) →
      dest ∉ l.map Prod.fst →
      deallocBlock dest l1 = l := by
  intro l
  induction l with
  | nil =>
    intro candidate stop size dest l1 h hmem
    rw [allocFirstFit] at h
    by_cases hc : candidate + size ≤ stop
    · rw [if_pos hc] at h
      cases h
      simp [deallocBlock]
    · rw [if_neg hc] at h
      exact absurd h (by simp)
  | cons p rest ih =>
    intro candidate stop size dest l1 h hmem
    obtain ⟨a, sz⟩ := p
    rw [allocFirstFit] at h
    by_cases hc : candidate + size ≤ a
    · rw [if_pos hc] at h
      cases h
      have ha : a ≠ candidate := by
        intro he
        refine hmem ?_
        rw [List.map_cons, he]
        exact List.mem_cons_self _ _
      simp only [deallocBlock]
      simp [ha]
      intro x y hxy he
      refine hmem ?_
      rw [List.map_cons]
      exact List.mem_cons_of_mem _ (List.mem_map.mpr ⟨(x, y), hxy, he⟩)
    · rw [if_neg hc] at h
      cases hrec : allocFirstFit stop size (a + sz) rest with
      | none =>
        rw [hrec] at h
        exact absurd h (by simp)
      | some res =>
        obtain ⟨addr, rest1⟩ := res
        rw [hrec] at h
        cases h
        have hmem2 : dest ∉ rest.map Prod.fst := by
          intro hm
          refine hmem ?_
          rw [List.map_cons]
          exact List.mem_cons_of_mem _ hm
        have ha : a ≠ dest := by
          intro he
          refine hmem ?_
          rw [List.map_cons, he]
          exact List.mem_cons_self _ _
        have ihh := ih (a + sz) stop size dest rest1 hrec hmem2
        simp only [deallocBlock] at ihh ⊢
        simp [ha]
        simpa using ihh

/-- C9: when allocating a sprite block or its palette block fails
because the memory range is exhausted, `try_get_sprite` returns the
recoverable `None` result — never a panic — with the controller state
(cache maps and both allocators) exactly as before the call: no cache
entry is recorded and a partially allocated sprite block is returned to
the allocator; no internal retry happens. -/
theorem spec_c9_exhaustion_not_fatal :
    (∀ (s : SpriteControllerInner) (sp : Sprite),
      alookup s.sprite sp.id = none →
      allocFirstFit (TILE_SPRITE + 1024 * 8 * 4) sp.layoutSize TILE_SPRITE
        s.sprite_allocator = none →
      s.try_get_sprite sp = .ok (none, s)) ∧
    (∀ (s : SpriteControllerInner) (sp : Sprite) (dest : Nat) (allocd : List (Nat × Nat)),
      alookup s.sprite sp.id = none →
      allocFirstFit (TILE_SPRITE + 1024 * 8 * 4) sp.layoutSize TILE_SPRITE
        s.sprite_allocator = some (dest, allocd) →
      alookup s.palette sp.palette = none →
      allocFirstFit (PALETTE_SPRITE + 0x200) 32 PALETTE_SPRITE s.palette_allocator = none →
      dest ∉ s.sprite_allocator.map Prod.fst →
      s.try_get_sprite sp = .ok (none, s)) := by
  constructor
  · intro s sp h1 h2
    simp [SpriteControllerInner.try_get_sprite, h1, h2]
  · intro s sp dest allocd h1 h2 h3 h4 h5
    have hd : deallocBlock dest allocd = s.sprite_allocator :=
      allocFirstFit_dealloc s.sprite_allocator TILE_SPRITE _ _ _ _ h2 h5
    simp [SpriteControllerInner.try_get_sprite, SpriteControllerInner.getPalette,
      h1, h2, h3, h4, hd]

theorem spec_c9_exhaustion_not_fatal_witness :
    SpriteControllerInner.try_get_sprite
      { palette := [], sprite := [], sprite_allocator := [(TILE_SPRITE, 32768)],
        palette_allocator := [(PALETTE_SPRITE, 0x200)] } ⟨1000, 2000, .s8x8⟩ =
      .ok (none,
        { palette := [], sprite := [], sprite_allocator := [(TILE_SPRITE, 32768)],
          palette_allocator := [(PALETTE_SPRITE, 0x200)] }) ∧
    SpriteControllerInner.try_get_sprite
      { palette := [], sprite := [], sprite_allocator := [],
        palette_allocator := [(PALETTE_SPRITE, 0x200)] } ⟨1000, 2000, .s8x8⟩ =
      .ok (none,
        { palette := [], sprite := [], sprite_allocator := [],
          palette_allocator := [(PALETTE_SPRITE, 0x200)] }) :=
  ⟨spec_c9_exhaustion_not_fatal.1 _ _ (by decide) (by decide),
   spec_c9_exhaustion_not_fatal.2 _ _ TILE_SPRITE [(TILE_SPRITE, 32)]
     (by decide) (by decide) (by decide) (by decide) (by decide)⟩

theorem sprite_layout_le (sp : Sprite) : sp.layoutSize ≤ 32768 := by
  show sp.size.number_of_tiles * BYTES_PER_TILE_4BPP ≤ 32768
  cases h : sp.size <;> decide

/-- C7: starting from a fresh controller, requesting the same sprite
asset twice allocates its hardware block exactly once (the allocator
still holds the single block after the second request) and leaves the
cache entry at refcount 2; releasing one borrow leaves the block
allocated and the entry present at refcount 1; releasing the second
returns the controller to its fresh state — block freed, cache entry
removed — and a subsequent request for any other sprite reuses the freed
block (it is placed at the same base address, location 0). -/
theorem spec_c7_sprite_cache_refcount (sp sp1 : Sprite) :
    ∃ b1 s1 b2 s2 b3 s5,
      SpriteControllerInner.new.try_get_sprite sp = .ok (some b1, s1) ∧
      alookup s1.sprite sp.id = some ⟨0, 1⟩ ∧
      s1.sprite_allocator = [(TILE_SPRITE, sp.layoutSize)] ∧
      s1.try_get_sprite sp = .ok (some b2, s2) ∧
      alookup s2.sprite sp.id = some ⟨0, 2⟩ ∧
      alookup s2.palette sp.palette = some ⟨0, 2⟩ ∧
      s2.sprite_allocator = s1.sprite_allocator ∧
      alookup (s2.return_sprite sp).sprite sp.id = some ⟨0, 1⟩ ∧
      (s2.return_sprite sp).sprite_allocator = [(TILE_SPRITE, sp.layoutSize)] ∧
      (s2.return_sprite sp).return_sprite sp = SpriteControllerInner.new ∧
      ((s2.return_sprite sp).return_sprite sp).try_get_sprite sp1 = .ok (some b3, s5) ∧
      b3.sprite_location = 0 ∧
      s5.sprite_allocator = [(TILE_SPRITE, sp1.layoutSize)] := by
  have hC : TILE_SPRITE + sp.layoutSize ≤ TILE_SPRITE + 1024 * 8 * 4 := by
    have := sprite_layout_le sp
    omega
  have hC1 : TILE_SPRITE + sp1.layoutSize ≤ TILE_SPRITE + 1024 * 8 * 4 := by
    have := sprite_layout_le sp1
    omega
  have ea : allocFirstFit (TILE_SPRITE + 1024 * 8 * 4) sp.layoutSize TILE_SPRITE [] =
      some (TILE_SPRITE, [(TILE_SPRITE, sp.layoutSize)]) := by
    rw [allocFirstFit, if_pos hC]
  have ea1 : allocFirstFit (TILE_SPRITE + 1024 * 8 * 4) sp1.layoutSize TILE_SPRITE [] =
      some (TILE_SPRITE, [(TILE_SPRITE, sp1.layoutSize)]) := by
    rw [allocFirstFit, if_pos hC1]
  have ep : allocFirstFit (PALETTE_SPRITE + 0x200) 32 PALETTE_SPRITE [] =
      some (PALETTE_SPRITE, [(PALETTE_SPRITE, 32)]) := by
    rw [allocFirstFit, if_pos (by omega)]
  have e1 : SpriteControllerInner.new.try_get_sprite sp =
      .ok (some ⟨sp.id, 0, 0⟩,
        { palette := [(sp.palette, ⟨0, 1⟩)], sprite := [(sp.id, ⟨0, 1⟩)],
          sprite_allocator := [(TILE_SPRITE, sp.layoutSize)],
          palette_allocator := [(PALETTE_SPRITE, 32)] }) := by
    simp [SpriteControllerInner.try_get_sprite, SpriteControllerInner.getPalette,
      SpriteControllerInner.new, alookup, ainsert, aerase, ea, ep]
  have e2 : SpriteControllerInner.try_get_sprite
      { palette := [(sp.palette, ⟨0, 1⟩)], sprite := [(sp.id, ⟨0, 1⟩)],
        sprite_allocator := [(TILE_SPRITE, sp.layoutSize)],
        palette_allocator := [(PALETTE_SPRITE, 32)] } sp =
      .ok (some ⟨sp.id, 0, 0⟩,
        { palette := [(sp.palette, ⟨0, 2⟩)], sprite := [(sp.id, ⟨0, 2⟩)],
          sprite_allocator := [(TILE_SPRITE, sp.layoutSize)],
          palette_allocator := [(PALETTE_SPRITE, 32)] }) := by
    simp [SpriteControllerInner.try_get_sprite, SpriteControllerInner.getPalette,
      alookup, ainsert, aerase]
  have e3 : SpriteControllerInner.return_sprite
      { palette := [(sp.palette, ⟨0, 2⟩)], sprite := [(sp.id, ⟨0, 2⟩)],
        sprite_allocator := [(TILE_SPRITE, sp.layoutSize)],
        palette_allocator := [(PALETTE_SPRITE, 32)] } sp =
      { palette := [(sp.palette, ⟨0, 1⟩)], sprite := [(sp.id, ⟨0, 1⟩)],
        sprite_allocator := [(TILE_SPRITE, sp.layoutSize)],
        palette_allocator := [(PALETTE_SPRITE, 32)] } := by
    simp [SpriteControllerInner.return_sprite, SpriteControllerInner.return_palette,
      alookup, ainsert, aerase]
  have e4 : SpriteControllerInner.return_sprite
      { palette := [(sp.palette, ⟨0, 1⟩)], sprite := [(sp.id, ⟨0, 1⟩)],
        sprite_allocator := [(TILE_SPRITE, sp.layoutSize)],
        palette_allocator := [(PALETTE_SPRITE, 32)] } sp = SpriteControllerInner.new := by
    simp [SpriteControllerInner.return_sprite, SpriteControllerInner.return_palette,
      SpriteControllerInner.new, alookup, ainsert, aerase, deallocBlock]
  have e5 : SpriteControllerInner.new.try_get_sprite sp1 =
      .ok (some ⟨sp1.id, 0, 0⟩,
        { palette := [(sp1.palette, ⟨0, 1⟩)], sprite := [(sp1.id, ⟨0, 1⟩)],
          sprite_allocator := [(TILE_SPRITE, sp1.layoutSize)],
          palette_allocator := [(PALETTE_SPRITE, 32)] }) := by
    simp [SpriteControllerInner.try_get_sprite, SpriteControllerInner.getPalette,
      SpriteControllerInner.new, alookup, ainsert, aerase, ea1, ep]
  refine ⟨⟨sp.id, 0, 0⟩,
    { palette := [(sp.palette, ⟨0, 1⟩)], sprite := [(sp.id, ⟨0, 1⟩)],
      sprite_allocator := [(TILE_SPRITE, sp.layoutSize)],
      palette_allocator := [(PALETTE_SPRITE, 32)] },
    ⟨sp.id, 0, 0⟩,
    { palette := [(sp.palette, ⟨0, 2⟩)], sprite := [(sp.id, ⟨0, 2⟩)],
      sprite_allocator := [(TILE_SPRITE, sp.layoutSize)],
      palette_allocator := [(PALETTE_SPRITE, 32)] },
    ⟨sp1.id, 0, 0⟩,
    { palette := [(sp1.palette, ⟨0, 1⟩)], sprite := [(sp1.id, ⟨0, 1⟩)],
      sprite_allocator := [(TILE_SPRITE, sp1.layoutSize)],
      palette_allocator := [(PALETTE_SPRITE, 32)] },
    e1, ?_, rfl, e2, ?_, ?_, rfl, ?_, ?_, ?_, ?_, rfl, rfl⟩
  · simp [alookup]
  · simp [alookup]
  · simp [alookup]
  · rw [e3]
    simp [alookup]
  · rw [e3]
  · rw [e3, e4]
  · rw [e3, e4, e5]

theorem lget_some_lt {α : Type} : ∀ (l : List α) (n : Nat) (a : α),
    l.get? n = some a → n < l.length := by
  intro l
  induction l with
  | nil => intro n a h; exact absurd h (by simp)
  | cons x xs ih =>
    intro n a h
    cases n with
    | zero => simp
    | succ k => exact Nat.succ_lt_succ (ih k a h)

theorem lget_append_lt {α : Type} : ∀ (l1 l2 : List α) (n : Nat),
    n < l1.length → (l1 ++ l2).get? n = l1.get? n := by
  intro l1
  induction l1 with
  | nil => intro l2 n h; simp at h
  | cons x xs ih =>
    intro l2 n h
    cases n with
    | zero => rfl
    | succ k => exact ih l2 k (by simpa using h)

theorem lget_concat_self {α : Type} : ∀ (l : List α) (a : α),
    (l ++ [a]).get? l.length = some a := by
  intro l
  induction l with
  | nil => intro a; rfl
  | cons x xs ih => intro a; exact ih a


theorem inv_step_add_set (tl : List ArenaStorageItem) (ts : TileSet) (g ptr : Nat)
    (live : List TileSetReference)
    (hptr : ptr < tl.length)
    (hfree : ∀ ts0 g0, tl.get? ptr ≠ some (.data ts0 g0))
    (hlive : ∀ r ∈ live, ∃ ts1, tl.get? r.id = some (.data ts1 r.generation))
    (hpw : live.Pairwise (fun a b => a.id ≠ b.id)) :
    (∀ r ∈ (⟨ptr, g⟩ : TileSetReference) :: live,
      ∃ ts1, (tl.set ptr (.data ts g)).get? r.id = some (.data ts1 r.generation)) ∧
    ((⟨ptr, g⟩ : TileSetReference) :: live).Pairwise (fun a b => a.id ≠ b.id) := by
  have hne : ∀ r ∈ live, r.id ≠ ptr := by
    intro r hr heq
    obtain ⟨ts1, hts⟩ := hlive r hr
    rw [heq] at hts
    exact hfree ts1 r.generation hts
  constructor
  · intro r hr
    rcases List.mem_cons.mp hr with hr | hr
    · subst hr
      exact ⟨ts, by rw [lget_set_self tl ptr _ hptr]⟩
    · obtain ⟨ts1, hts⟩ := hlive r hr
      exact ⟨ts1, by rw [lget_set_ne tl ptr r.id _ (fun hh => hne r hr (Eq.symm hh)), hts]⟩
  · refine List.Pairwise.cons ?_ hpw
    intro r hr
    show ptr ≠ r.id
    exact fun hh => hne r hr (Eq.symm hh)

theorem inv_step_add_append (tl : List ArenaStorageItem) (ts : TileSet) (g : Nat)
    (live : List TileSetReference)
    (hlive : ∀ r ∈ live, ∃ ts1, tl.get? r.id = some (.data ts1 r.generation))
    (hpw : live.Pairwise (fun a b => a.id ≠ b.id)) :
    (∀ r ∈ (⟨tl.length, g⟩ : TileSetReference) :: live,
      ∃ ts1, (tl ++ [ArenaStorageItem.data ts g]).get? r.id = some (.data ts1 r.generation)) ∧
    ((⟨tl.length, g⟩ : TileSetReference) :: live).Pairwise (fun a b => a.id ≠ b.id) := by
  have hlt : ∀ r ∈ live, r.id < tl.length := by
    intro r hr
    obtain ⟨ts1, hts⟩ := hlive r hr
    exact lget_some_lt _ _ _ hts
  constructor
  · intro r hr
    rcases List.mem_cons.mp hr with hr | hr
    · subst hr
      exact ⟨ts, lget_concat_self tl _⟩
    · obtain ⟨ts1, hts⟩ := hlive r hr
      exact ⟨ts1, by rw [lget_append_lt tl _ r.id (hlt r hr), hts]⟩
  · refine List.Pairwise.cons ?_ hpw
    intro r hr
    show tl.length ≠ r.id
    have := hlt r hr
    omega

theorem inv_step_remove (tl : List ArenaStorageItem) (r : TileSetReference)
    (item : ArenaStorageItem) (ts0 : TileSet)
    (hget : tl.get? r.id = some (.data ts0 r.generation))
    (live : List TileSetReference)
    (hlive : ∀ q ∈ live, ∃ ts1, tl.get? q.id = some (.data ts1 q.generation))
    (hpw : live.Pairwise (fun a b => a.id ≠ b.id)) :
    (∀ q ∈ live.filter (fun q => q ≠ r),
      ∃ ts1, (tl.set r.id item).get? q.id = some (.data ts1 q.generation)) ∧
    (live.filter (fun q => q ≠ r)).Pairwise (fun a b => a.id ≠ b.id) := by
  constructor
  · intro q hq
    have hq1 : q ∈ live := List.mem_of_mem_filter hq
    have hq2 : q ≠ r := by
      have := List.of_mem_filter hq
      simpa using this
    have hqid : q.id ≠ r.id := by
      intro heq
      obtain ⟨ts1, hts⟩ := hlive q hq1
      rw [heq] at hts
      have h2 := Option.some.inj (hget.symm.trans hts)
      have hgen : r.generation = q.generation := by injection h2
      apply hq2
      obtain ⟨qi, qg⟩ := q
      obtain ⟨ri, rg⟩ := r
      simp only [TileSetReference.mk.injEq]
      simp only at heq hgen
      exact ⟨heq, hgen.symm⟩
    obtain ⟨ts1, hts⟩ := hlive q hq1
    exact ⟨ts1, by rw [lget_set_ne tl r.id q.id _ (fun hh => hqid (Eq.symm hh)), hts]⟩
  · exact List.Pairwise.sublist (List.filter_sublist live) hpw

theorem runArena_inv :
    ∀ (ops : List ArenaOp) (m : VRamManager) (live : List TileSetReference)
      (m1 : VRamManager) (live1 : List TileSetReference),
      m.tilesets.length + ops.length ≤ 65536 →
      (∀ r ∈ live, ∃ ts, m.tilesets.get? r.id = some (.data ts r.generation)) →
      live.Pairwise (fun a b => a.id ≠ b.id) →
      runArena m live ops = some (m1, live1) →
      (∀ r ∈ live1, ∃ ts, m1.tilesets.get? r.id = some (.data ts r.generation)) ∧
      live1.Pairwise (fun a b => a.id ≠ b.id) := by
  intro ops
  induction ops with
  | nil =>
    intro m live m1 live1 hlen hlive hpw h
    rw [runArena] at h
    cases h
    exact ⟨hlive, hpw⟩
  | cons op rest ih =>
    intro m live m1 live1 hlen hlive hpw h
    simp only [List.length_cons] at hlen
    cases op with
    | add ts =>
      simp only [runArena, VRamManager.add_tileset] at h
      cases hfp : m.free_pointer with
      | some ptr =>
        simp only [hfp] at h
        cases hget : m.tilesets.get? ptr with
        | none =>
          simp only [hget] at h
          simp at h
        | some item =>
          cases item with
          | data ts0 g0 =>
            simp only [hget] at h
            simp at h
          | endOfFreeList =>
            simp only [hget] at h
            have hptr : ptr < m.tilesets.length := lget_some_lt _ _ _ hget
            have hmod : ptr % 65536 = ptr := Nat.mod_eq_of_lt (by omega)
            rw [hmod] at h
            have step := inv_step_add_set m.tilesets ts m.generation ptr live hptr
              (fun ts0 g0 hc => by rw [hget] at hc; exact absurd hc (by simp))
              hlive hpw
            exact ih _ _ m1 live1 (by simp [List.length_set]; omega) step.1 step.2 h
          | nextFree nf =>
            simp only [hget] at h
            have hptr : ptr < m.tilesets.length := lget_some_lt _ _ _ hget
            have hmod : ptr % 65536 = ptr := Nat.mod_eq_of_lt (by omega)
            rw [hmod] at h
            have step := inv_step_add_set m.tilesets ts m.generation ptr live hptr
              (fun ts0 g0 hc => by rw [hget] at hc; exact absurd hc (by simp))
              hlive hpw
            exact ih _ _ m1 live1 (by simp [List.length_set]; omega) step.1 step.2 h
      | none =>
        simp only [hfp] at h
        have hmod : m.tilesets.length % 65536 = m.tilesets.length :=
          Nat.mod_eq_of_lt (by omega)
        rw [hmod] at h
        have step := inv_step_add_append m.tilesets ts m.generation live hlive hpw
        exact ih _ _ m1 live1 (by simp; omega) step.1 step.2 h
    | remove r =>
      simp only [runArena, VRamManager.remove_tileset] at h
      cases hget : m.tilesets.get? r.id with
      | none =>
        simp only [hget] at h
        simp at h
      | some item =>
        cases item with
        | endOfFreeList =>
          simp only [hget] at h
          simp at h
        | nextFree nf =>
          simp only [hget] at h
          simp at h
        | data ts0 g0 =>
          simp only [hget] at h
          by_cases hg : g0 = r.generation
          · subst hg
            rw [if_pos rfl] at h
            simp only [] at h
            have step := inv_step_remove m.tilesets r
              (match m.free_pointer with
               | some ptr => ArenaStorageItem.nextFree ptr
               | none => ArenaStorageItem.endOfFreeList) ts0 hget live hlive hpw
            exact ih _ _ m1 live1 (by simp [List.length_set]; omega) step.1 step.2 h
          · rw [if_neg hg] at h
            simp at h

/-- C3: for any sequence of `add_tileset`/`remove_tileset` calls (of any
length realisable in the 16-bit id space), every live reference's
generation equals the generation stored in its arena slot and no two
simultaneously live references share a slot index; `remove_tileset` on a
reference whose generation does not match the slot, or on an
already-freed slot, fails fatally rather than recovering. -/
theorem spec_c3_arena_generations :
    (∀ (ops : List ArenaOp) (m1 : VRamManager) (live1 : List TileSetReference),
      ops.length ≤ 65535 →
      runArena VRamManager.new [] ops = some (m1, live1) →
      (∀ r ∈ live1, ∃ ts, m1.tilesets.get? r.id = some (.data ts r.generation)) ∧
      live1.Pairwise (fun a b => a.id ≠ b.id)) ∧
    (∀ (m : VRamManager) (r : TileSetReference) (ts : TileSet) (g : Nat),
      m.tilesets.get? r.id = some (.data ts g) → g ≠ r.generation →
      m.remove_tileset r = none) ∧
    (∀ (m : VRamManager) (r : TileSetReference),
      (m.tilesets.get? r.id = some .endOfFreeList ∨
       (∃ n, m.tilesets.get? r.id = some (.nextFree n)) ∨
       m.tilesets.get? r.id = none) →
      m.remove_tileset r = none) := by
  refine ⟨?_, ?_, ?_⟩
  · intro ops m1 live1 hlen h
    exact runArena_inv ops VRamManager.new [] m1 live1
      (by simp [VRamManager.new]; omega) (by simp) (by simp) h
  · intro m r ts g hget hg
    unfold VRamManager.remove_tileset
    simp only [hget]
    rw [if_neg hg]
  · intro m r hcase
    unfold VRamManager.remove_tileset
    rcases hcase with hget | ⟨n, hget⟩ | hget <;> simp only [hget]

theorem spec_c3_arena_generations_witness :
    ((∀ r ∈ [(⟨1, 1⟩ : TileSetReference)],
      ∃ ts, [ArenaStorageItem.endOfFreeList,
        ArenaStorageItem.data ⟨[], .fourBpp⟩ 1].get? r.id = some (.data ts r.generation)) ∧
      ([(⟨1, 1⟩ : TileSetReference)]).Pairwise (fun a b => a.id ≠ b.id)) ∧
    VRamManager.remove_tileset
      { VRamManager.new with tilesets := [ArenaStorageItem.data ⟨[], .fourBpp⟩ 5] }
      ⟨0, 4⟩ = none ∧
    VRamManager.remove_tileset
      { VRamManager.new with tilesets := [ArenaStorageItem.endOfFreeList] } ⟨0, 0⟩ = none := by
  refine ⟨?_, ?_, ?_⟩
  · have h := spec_c3_arena_generations.1
      [ArenaOp.add ⟨[], .fourBpp⟩, ArenaOp.add ⟨[], .fourBpp⟩, ArenaOp.remove ⟨0, 0⟩]
      { tilesets := [ArenaStorageItem.endOfFreeList, ArenaStorageItem.data ⟨[], .fourBpp⟩ 1],
        generation := 2, free_pointer := some 0, tile_set_to_vram := [],
        references := [.free 0], vram_free_pointer := none, tile_background := [] }
      [⟨1, 1⟩] (by decide) (by decide)
    exact h
  · exact spec_c3_arena_generations.2.1
      { VRamManager.new with tilesets := [ArenaStorageItem.data ⟨[], .fourBpp⟩ 5] }
      ⟨0, 4⟩ ⟨[], .fourBpp⟩ 5 (by decide) (by decide)
  · exact spec_c3_arena_generations.2.2
      { VRamManager.new with tilesets := [ArenaStorageItem.endOfFreeList] }
      ⟨0, 0⟩ (Or.inl (by decide))

theorem lget_none_ge {α : Type} : ∀ (l : List α) (j : Nat), l.length ≤ j → l.get? j = none := by
  intro l
  induction l with
  | nil => intro j _; rfl
  | cons x xs ih =>
    intro j h
    cases j with
    | zero => simp at h
    | succ k => exact ih k (by simpa using h)

theorem lget_concat_ne {α : Type} (l : List α) (a : α) (j : Nat) (h : j ≠ l.length) :
    (l ++ [a]).get? j = l.get? j := by
  by_cases hj : j < l.length
  · exact lget_append_lt l [a] j hj
  · rw [lget_none_ge l j (by omega), lget_none_ge (l ++ [a]) j (by simp; omega)]

theorem add_tile_hit (m : VRamManager) (r : TileSetReference) (tile idx c : Nat)
    (hl : alookup m.tile_set_to_vram (r.id, tile) = some (idx, r.generation))
    (hc : m.references.get? idx = some (.referenceCounted c (r.id, tile)))
    (hlt : c + 1 ≤ 65535) :
    m.add_tile r tile = some (idx,
      { m with references := m.references.set idx (.referenceCounted (c + 1) (r.id, tile)) }) := by
  simp only [VRamManager.add_tile, hl]
  rw [if_pos trivial]
  simp only [hc]
  rw [show (c + 1) % 65536 = c + 1 from Nat.mod_eq_of_lt (by omega)]

theorem addTileTimes_hits :
    ∀ (k : Nat) (m : VRamManager) (r : TileSetReference) (tile idx c : Nat),
      alookup m.tile_set_to_vram (r.id, tile) = some (idx, r.generation) →
      m.references.get? idx = some (.referenceCounted c (r.id, tile)) →
      c + k ≤ 65535 →
      addTileTimes k m r tile =
        some (List.replicate k idx,
          { m with references :=
              m.references.set idx (.referenceCounted (c + k) (r.id, tile)) }) := by
  intro k
  induction k with
  | zero =>
    intro m r tile idx c hl hc _
    rw [addTileTimes]
    rw [show c + 0 = c from rfl, lset_of_get _ _ _ hc]
    rfl
  | succ k ih =>
    intro m r tile idx c hl hc hlt
    have hidx : idx < m.references.length := lget_some_lt _ _ _ hc
    rw [addTileTimes, add_tile_hit m r tile idx c hl hc (by omega)]
    simp only []
    rw [ih { m with references :=
          m.references.set idx (.referenceCounted (c + 1) (r.id, tile)) } r tile idx (c + 1)
        hl (lget_set_self _ _ _ hidx) (by omega)]
    simp only [List.set_set]
    rw [show c + 1 + k = c + (k + 1) from by omega]
    rfl

theorem add_tile_fresh (m : VRamManager) (r : TileSetReference) (tile : Nat) (ts : TileSet)
    (h1 : alookup m.tile_set_to_vram (r.id, tile) = none)
    (h2 : m.tilesets.get? r.id = some (.data ts r.generation))
    (h3 : tile * 8 + 8 ≤ ts.tiles.length)
    (h4 : m.freeHeadOk = true)
    (h5 : m.references.length ≤ 65535) :
    ∃ idx m1, m.add_tile r tile = some (idx, m1) ∧
      idx < 65536 ∧
      alookup m1.tile_set_to_vram (r.id, tile) = some (idx, r.generation) ∧
      m1.references.get? idx = some (.referenceCounted 1 (r.id, tile)) ∧
      (∀ j, j ≠ idx → m1.references.get? j = m.references.get? j) ∧
      m1.references.length ≤ m.references.length + 1 ∧
      idx < m1.references.length ∧
      (∃ w, m1.tile_background = m.tile_background ++ w ∧ w.length = 8) ∧
      m1.tilesets = m.tilesets := by
  have hfmt : ts.format = .fourBpp := by cases hx : ts.format; rfl
  have hsz : ts.format.tile_size / 4 = 8 := by rw [hfmt]; rfl
  simp only [VRamManager.add_tile, h1, VRamManager.add_tile_alloc]
  cases hv : m.vram_free_pointer with
  | none =>
    simp only [h2]
    rw [if_pos trivial, hsz, if_pos h3]
    have hmod : m.references.length % 65536 = m.references.length :=
      Nat.mod_eq_of_lt (by omega)
    rw [hmod]
    refine ⟨m.references.length, _, rfl, by omega, alookup_ainsert_self _ _ _,
      lget_concat_self _ _, ?_, by simp, by simp, ?_, rfl⟩
    · intro j hj
      exact lget_concat_ne _ _ j hj
    · refine ⟨_, rfl, ?_⟩
      simp [List.enum_length]
      omega
  | some ptr =>
    simp only [VRamManager.freeHeadOk, hv] at h4
    cases hg : m.references.get? ptr with
    | none =>
      simp only [hg] at h4
      exact absurd h4 (by simp)
    | some st =>
      cases st with
      | referenceCounted c k =>
        simp only [hg] at h4
        exact absurd h4 (by simp)
      | free nf =>
        have hptr : ptr < m.references.length := lget_some_lt _ _ _ hg
        simp only [hg]
        simp only [h2]
        rw [if_pos trivial, hsz, if_pos h3]
        have hmod : ptr % 65536 = ptr := Nat.mod_eq_of_lt (by omega)
        rw [hmod]
        refine ⟨ptr, _, rfl, by omega, alookup_ainsert_self _ _ _,
          lget_set_self _ _ _ hptr, ?_, by simp, by simp [hptr], ?_, rfl⟩
        · intro j hj
          exact lget_set_ne _ _ _ _ (fun hh => hj (Eq.symm hh))
        · refine ⟨_, rfl, ?_⟩
          simp [List.enum_length]
          omega

theorem removeTileTimes_all :
    ∀ (c : Nat) (m : VRamManager) (idx : Nat) (key : Nat × Nat),
      m.references.get? idx = some (.referenceCounted c key) →
      1 ≤ c → c ≤ 65535 →
      ∃ next, removeTileTimes c m idx =
        some { m with references := m.references.set idx (.free next),
                      tile_set_to_vram := aerase m.tile_set_to_vram key,
                      vram_free_pointer := some idx } := by
  intro c
  induction c with
  | zero => intro m idx key _ h1 _; omega
  | succ c ih =>
    intro m idx key hc h1 hlt
    have hidx : idx < m.references.length := lget_some_lt _ _ _ hc
    rcases Nat.eq_zero_or_pos c with hc0 | hcpos
    · subst hc0
      rw [removeTileTimes]
      simp only [VRamManager.remove_tile, hc]
      rw [show (1 + 65535) % 65536 = 0 from by decide]
      rw [if_neg (by simp)]
      refine ⟨match m.vram_free_pointer with
              | some ptr => ptr % 65536
              | none => END_OF_FREE_LIST_MARKER, ?_⟩
      simp only []
      rw [removeTileTimes]
    · rw [removeTileTimes]
      simp only [VRamManager.remove_tile, hc]
      rw [show (c + 1 + 65535) % 65536 = c from by omega]
      rw [if_pos (by omega)]
      simp only []
      obtain ⟨next, hrec⟩ := ih
        { m with references := m.references.set idx (.referenceCounted c key) } idx key
        (lget_set_self _ _ _ hidx) hcpos (by omega)
      refine ⟨next, ?_⟩
      rw [hrec]
      simp only [List.set_set]

/-- C1: for a valid (tileset reference, tile offset) pair not yet cached,
calling `add_tile` N times returns the same physical slot index every
time, raises that slot's reference count to N, allocates exactly one
physical slot (every other slot is untouched and the table grows by at
most one entry), and copies the 8 tile words to hardware only on the
first call; calling `remove_tile` on the returned index N times returns
the slot to the VRAM free list (it becomes the free-list head) and
removes the owner-key entry from `tile_set_to_vram`. -/
theorem spec_c1_tile_cache_refcount (m : VRamManager) (r : TileSetReference)
    (tile N : Nat) (ts : TileSet)
    (hN1 : 1 ≤ N) (hN2 : N ≤ 65535)
    (h1 : alookup m.tile_set_to_vram (r.id, tile) = none)
    (h2 : m.tilesets.get? r.id = some (.data ts r.generation))
    (h3 : tile * 8 + 8 ≤ ts.tiles.length)
    (h4 : m.freeHeadOk = true)
    (h5 : m.references.length ≤ 65535) :
    ∃ idx m1 mN mF,
      m.add_tile r tile = some (idx, m1) ∧
      addTileTimes N m r tile = some (List.replicate N idx, mN) ∧
      mN.references.get? idx = some (.referenceCounted N (r.id, tile)) ∧
      (∀ j, j ≠ idx → mN.references.get? j = m.references.get? j) ∧
      mN.references.length ≤ m.references.length + 1 ∧
      mN.tile_background = m1.tile_background ∧
      (∃ w, m1.tile_background = m.tile_background ++ w ∧ w.length = 8) ∧
      removeTileTimes N mN idx = some mF ∧
      (∃ next, mF.references.get? idx = some (.free next)) ∧
      mF.vram_free_pointer = some idx ∧
      alookup mF.tile_set_to_vram (r.id, tile) = none ∧
      (∀ j, j ≠ idx → mF.references.get? j = m.references.get? j) := by
  obtain ⟨idx, m1, ha, hidx16, hlook, hget1, hoth, hlen1, hidxlt, hw, htls⟩ :=
    add_tile_fresh m r tile ts h1 h2 h3 h4 h5
  obtain ⟨n, rfl⟩ : ∃ n, N = n + 1 := ⟨N - 1, by omega⟩
  have hAT : addTileTimes (n + 1) m r tile =
      some (List.replicate (n + 1) idx,
        { m1 with references := m1.references.set idx (.referenceCounted (1 + n) (r.id, tile)) }) := by
    rw [addTileTimes, ha]
    simp only []
    rw [addTileTimes_hits n m1 r tile idx 1 hlook hget1 (by omega)]
    rfl
  have hgetN : ({ m1 with references := m1.references.set idx (.referenceCounted (1 + n) (r.id, tile)) } : VRamManager).references.get? idx =
      some (.referenceCounted (n + 1) (r.id, tile)) := by
    rw [show (1 + n) = n + 1 from by omega]
    exact lget_set_self _ _ _ hidxlt
  have hothN : ∀ j, j ≠ idx → ({ m1 with references := m1.references.set idx (.referenceCounted (1 + n) (r.id, tile)) } : VRamManager).references.get? j = m.references.get? j := by
    intro j hj
    exact (lget_set_ne _ _ _ _ (fun hh => hj (Eq.symm hh))).trans (hoth j hj)
  obtain ⟨next, hrem⟩ := removeTileTimes_all (n + 1)
    { m1 with references := m1.references.set idx (.referenceCounted (1 + n) (r.id, tile)) }
    idx (r.id, tile) hgetN (by omega) (by omega)
  refine ⟨idx, m1, _, _, ha, hAT, hgetN, hothN, ?_, rfl, hw, hrem, ?_, rfl, ?_, ?_⟩
  · simp only [List.length_set]
    exact hlen1
  · refine ⟨next, ?_⟩
    simp only [List.set_set]
    exact lget_set_self _ _ _ (by simpa using hidxlt)
  · exact alookup_aerase_self _ _
  · intro j hj
    simp only [List.set_set]
    exact (lget_set_ne _ _ _ _ (fun hh => hj (Eq.symm hh))).trans (hoth j hj)

theorem spec_c1_tile_cache_refcount_witness :
    (addTileTimes 3
      { tilesets := [ArenaStorageItem.data ⟨List.range 8, .fourBpp⟩ 0], generation := 1,
        free_pointer := none, tile_set_to_vram := [], references := [.free 0],
        vram_free_pointer := none, tile_background := [] } ⟨0, 0⟩ 0).isSome = true := by
  obtain ⟨idx, m1, mN, mF, -, hAT, -⟩ :=
    spec_c1_tile_cache_refcount
      { tilesets := [ArenaStorageItem.data ⟨List.range 8, .fourBpp⟩ 0], generation := 1,
        free_pointer := none, tile_set_to_vram := [], references := [.free 0],
        vram_free_pointer := none, tile_background := [] } ⟨0, 0⟩ 0 3
      ⟨List.range 8, .fourBpp⟩ (by decide) (by decide) (by decide) (by decide)
      (by decide) (by decide) (by decide)
  rw [hAT]
  rfl

theorem flatMap_map_single {α β : Type} (l : List α) (f : α → β) :
    (l.flatMap fun x => [f x]) = l.map f := by
  induction l with
  | nil => rfl
  | cons a t ih => rw [List.flatMap_cons, ih]; rfl

theorem flatMap_const_nil {α β : Type} (l : List α) :
    (l.flatMap fun _ => ([] : List β)) = [] := by
  induction l with
  | nil => rfl
  | cons a t ih => rw [List.flatMap_cons, ih]; rfl

theorem rectIter_zero_w (p : Int × Int) (n : Int) : rectIter p (0, n) = [] := by
  show (List.range n.toNat).flatMap _ = []
  have h : ∀ dy : Nat, (List.range ((0 : Int).toNat)).map
      (fun dx : Nat => (p.1 + (dx : Int), p.2 + (dy : Int))) = [] := fun _ => rfl
  calc (List.range n.toNat).flatMap _
      = (List.range n.toNat).flatMap fun _ => ([] : List (Int × Int)) := by
        exact List.flatMap_congr (fun dy _ => h dy)
    _ = [] := flatMap_const_nil _

theorem rectIter_zero_h (p : Int × Int) (n : Int) : rectIter p (n, 0) = [] := rfl

theorem range_one_eq : List.range 1 = [0] := rfl

theorem rectIter_col22 (a b : Int) :
    rectIter (a, b) (1, 22) = (List.range 22).map fun dy : Nat => (a, b + (dy : Int)) := by
  show (List.range 22).flatMap
      (fun dy : Nat => (List.range 1).map fun dx : Nat => (a + (dx : Int), b + (dy : Int))) = _
  have h : ∀ dy : Nat, (List.range 1).map
      (fun dx : Nat => (a + (dx : Int), b + (dy : Int))) = [(a, b + (dy : Int))] := by
    intro dy
    rw [range_one_eq]
    simp
  calc (List.range 22).flatMap
        (fun dy : Nat => (List.range 1).map fun dx : Nat => (a + (dx : Int), b + (dy : Int)))
      = (List.range 22).flatMap fun dy : Nat => [(a, b + (dy : Int))] := by
        exact List.flatMap_congr (fun dy _ => h dy)
    _ = _ := flatMap_map_single _ _

theorem rectIter_row32 (a b : Int) :
    rectIter (a, b) (32, 1) = (List.range 32).map fun dx : Nat => (a + (dx : Int), b) := by
  show (List.range 1).flatMap
      (fun dy : Nat => (List.range 32).map fun dx : Nat => (a + (dx : Int), b + (dy : Int))) = _
  rw [range_one_eq, List.flatMap_cons, List.flatMap_nil, List.append_nil]
  simp

theorem setTileLoop_log (get_tile : Int × Int → TileSetReference × Nat) :
    ∀ (cells : List ((Nat × Nat) × (Int × Int))) (m : RegularMap) (vram : VRamManager)
      (log : List (Int × Int)) (out : RegularMap × VRamManager × List (Int × Int)),
      setTileLoop get_tile cells m vram log = some out →
      out.2.2 = log ++ cells.map Prod.snd := by
  intro cells
  induction cells with
  | nil =>
    intro m vram log out h
    injection h with h1
    rw [← h1]
    simp
  | cons c rest ih =>
    intro m vram log out h
    obtain ⟨cell, pos⟩ := c
    simp only [setTileLoop] at h
    cases hst : RegularMap.set_tile m vram cell (get_tile pos).1 (get_tile pos).2 with
    | none =>
      rw [hst] at h
      exact Option.noConfusion h
    | some r =>
      obtain ⟨m1, vram1⟩ := r
      rw [hst] at h
      have hrec := ih m1 vram1 (log ++ [pos]) out h
      rw [hrec]
      simp

theorem set_pos_cells_snd (o a b : Int × Int) :
    (set_pos_cells o a b).map Prod.snd = set_pos_points a b := by
  simp [set_pos_cells, Function.comp_def]

theorem init_cells_snd (pos : Int × Int) :
    (init_cells pos).map Prod.snd =
      rectIter (div_floor pos.1 8, div_floor pos.2 8)
        (div_ceil (pos.1 + WIDTH) 8 + 1 - div_floor pos.1 8,
         div_ceil (pos.2 + HEIGHT) 8 + 1 - div_floor pos.2 8) := by
  simp [init_cells, rectIter, List.map_flatMap, List.map_map, Function.comp_def]

theorem init_log (s : InfiniteScrolledMap) (get_tile : Int × Int → TileSetReference × Nat)
    (vram : VRamManager) (pos : Int × Int)
    (out : InfiniteScrolledMap × VRamManager × List (Int × Int))
    (h : s.init get_tile vram pos = some out) :
    out.2.2 = (init_cells pos).map Prod.snd := by
  simp only [InfiniteScrolledMap.init] at h
  cases hloop : setTileLoop get_tile (init_cells pos) s.map vram [] with
  | none =>
    rw [hloop] at h
    exact Option.noConfusion h
  | some r =>
    obtain ⟨m1, vram1, log⟩ := r
    rw [hloop] at h
    injection h with h1
    rw [← h1]
    simpa using setTileLoop_log get_tile _ _ _ _ _ hloop

theorem set_pos_log (s : InfiniteScrolledMap) (get_tile : Int × Int → TileSetReference × Nat)
    (vram : VRamManager) (new_pos : Int × Int)
    (out : InfiniteScrolledMap × VRamManager × List (Int × Int))
    (hx : (new_pos.1 - s.current_pos.1).natAbs ≤ 80)
    (hy : (new_pos.2 - s.current_pos.2).natAbs ≤ 80)
    (h : s.set_pos get_tile vram new_pos = some out) :
    out.2.2 = set_pos_points s.current_pos new_pos := by
  simp only [InfiniteScrolledMap.set_pos] at h
  split at h
  · rename_i hc
    exfalso
    omega
  · cases hloop : setTileLoop get_tile (set_pos_cells s.offset s.current_pos new_pos)
        s.map vram [] with
    | none =>
      rw [hloop] at h
      exact Option.noConfusion h
    | some r =>
      obtain ⟨m1, vram1, log⟩ := r
      rw [hloop] at h
      injection h with h1
      rw [← h1]
      simpa [set_pos_cells_snd] using setTileLoop_log get_tile _ _ _ _ _ hloop

theorem set_pos_rects_right (p : Int × Int)
    (hc : div_floor p.1 8 ≠ div_floor (p.1 + 1) 8) :
    set_pos_rects p (p.1 + 1, p.2) =
      (((div_floor (p.1 + 1) 8 + 30, div_floor p.2 8 - 1), (1, 22)), ((0, 0), (0, 0))) := by
  have h1 : p.1 + 1 - p.1 = 1 := by omega
  have h2 : p.2 - p.2 = 0 := by omega
  have h3 : div_ceil 1 8 = 1 := by decide
  have h4 : ¬((1 : Int).sign < 0) := by decide
  have h5 : ¬(div_floor p.2 8 ≠ div_floor p.2 8) := fun hh => hh rfl
  simp only [set_pos_rects, h1, h2]
  rw [if_pos hc, if_neg h5, h3, if_neg h4]

theorem set_pos_rects_left (p : Int × Int)
    (hc : div_floor p.1 8 ≠ div_floor (p.1 - 1) 8) :
    set_pos_rects p (p.1 - 1, p.2) =
      (((div_floor (p.1 - 1) 8, div_floor p.2 8 - 1), (0, 22)), ((0, 0), (0, 0))) := by
  have h1 : p.1 - 1 - p.1 = -1 := by omega
  have h2 : p.2 - p.2 = 0 := by omega
  have h3 : div_ceil (-1) 8 = 0 := by decide
  have h4 : (-1 : Int).sign < 0 := by decide
  have h5 : ¬(div_floor p.2 8 ≠ div_floor p.2 8) := fun hh => hh rfl
  simp only [set_pos_rects, h1, h2]
  rw [if_pos hc, if_neg h5, h3, if_pos h4]

theorem set_pos_rects_down (p : Int × Int)
    (hc : div_floor p.2 8 ≠ div_floor (p.2 + 1) 8) :
    set_pos_rects p (p.1, p.2 + 1) =
      (((0, 0), (0, 0)), ((div_floor p.1 8 - 1, div_floor (p.2 + 1) 8 + 20), (32, 1))) := by
  have h1 : p.1 - p.1 = 0 := by omega
  have h2 : p.2 + 1 - p.2 = 1 := by omega
  have h3 : div_ceil 1 8 = 1 := by decide
  have h4 : ¬((1 : Int).sign < 0) := by decide
  have h5 : ¬(div_floor p.1 8 ≠ div_floor p.1 8) := fun hh => hh rfl
  simp only [set_pos_rects, h1, h2]
  rw [if_neg h5, if_pos hc, h3, if_neg h4]

theorem set_pos_rects_same (p q : Int × Int)
    (hx : div_floor p.1 8 = div_floor q.1 8)
    (hy : div_floor p.2 8 = div_floor q.2 8) :
    set_pos_rects p q = (((0, 0), (0, 0)), ((0, 0), (0, 0))) := by
  simp only [set_pos_rects]
  rw [if_neg (fun hh => hh hx), if_neg (fun hh => hh hy)]

theorem set_pos_points_right (p : Int × Int)
    (hc : div_floor p.1 8 ≠ div_floor (p.1 + 1) 8) :
    set_pos_points p (p.1 + 1, p.2) =
      (List.range 22).map fun k : Nat =>
        (div_floor (p.1 + 1) 8 + 30, div_floor p.2 8 - 1 + (k : Int)) := by
  rw [set_pos_points, set_pos_rects_right p hc]
  dsimp only
  rw [rectIter_col22, rectIter_zero_h, List.append_nil]

theorem set_pos_points_left (p : Int × Int)
    (hc : div_floor p.1 8 ≠ div_floor (p.1 - 1) 8) :
    set_pos_points p (p.1 - 1, p.2) = [] := by
  rw [set_pos_points, set_pos_rects_left p hc]
  dsimp only
  rw [rectIter_zero_w, rectIter_zero_h]
  rfl

theorem set_pos_points_down (p : Int × Int)
    (hc : div_floor p.2 8 ≠ div_floor (p.2 + 1) 8) :
    set_pos_points p (p.1, p.2 + 1) =
      (List.range 32).map fun k : Nat =>
        (div_floor p.1 8 - 1 + (k : Int), div_floor (p.2 + 1) 8 + 20) := by
  rw [set_pos_points, set_pos_rects_down p hc]
  dsimp only
  rw [rectIter_zero_h, rectIter_row32, List.nil_append]

theorem set_pos_points_same (p q : Int × Int)
    (hx : div_floor p.1 8 = div_floor q.1 8)
    (hy : div_floor p.2 8 = div_floor q.2 8) :
    set_pos_points p q = [] := by
  rw [set_pos_points, set_pos_rects_same p q hx hy]
  dsimp only
  rw [rectIter_zero_h]
  rfl

/-- C4: `set_pos` with a delta beyond 80 pixels on either axis delegates
to `init`; `init` fetches exactly the full visible window (the tile
rectangle from the floored position to the ceiling of position plus
240×160 plus one guard line on each axis); a one-pixel move right across
a tile boundary fetches exactly the 22 tiles of the newly exposed
column, a one-pixel move down fetches exactly the 32 tiles of the newly
exposed row, a one-pixel move left across a boundary fetches nothing
(`div_ceil (-1) 8 = 0` empties the rectangle), and any sub-threshold
move that crosses no tile boundary fetches nothing — so a one-pixel
delta touches at most one tile column or row of fetch calls. -/
theorem spec_c4_scroll_window (s : InfiniteScrolledMap)
    (get_tile : Int × Int → TileSetReference × Nat) (vram : VRamManager) :
    (∀ new_pos : Int × Int,
        (new_pos.1 - s.current_pos.1).natAbs > 80 ∨ (new_pos.2 - s.current_pos.2).natAbs > 80 →
        s.set_pos get_tile vram new_pos = s.init get_tile vram new_pos) ∧
    (∀ pos out, s.init get_tile vram pos = some out →
        out.2.2 = rectIter (div_floor pos.1 8, div_floor pos.2 8)
          (div_ceil (pos.1 + WIDTH) 8 + 1 - div_floor pos.1 8,
           div_ceil (pos.2 + HEIGHT) 8 + 1 - div_floor pos.2 8)) ∧
    (∀ out, div_floor s.current_pos.1 8 ≠ div_floor (s.current_pos.1 + 1) 8 →
        s.set_pos get_tile vram (s.current_pos.1 + 1, s.current_pos.2) = some out →
        out.2.2 = (List.range 22).map fun k : Nat =>
          (div_floor (s.current_pos.1 + 1) 8 + 30, div_floor s.current_pos.2 8 - 1 + (k : Int))) ∧
    (∀ out, div_floor s.current_pos.2 8 ≠ div_floor (s.current_pos.2 + 1) 8 →
        s.set_pos get_tile vram (s.current_pos.1, s.current_pos.2 + 1) = some out →
        out.2.2 = (List.range 32).map fun k : Nat =>
          (div_floor s.current_pos.1 8 - 1 + (k : Int), div_floor (s.current_pos.2 + 1) 8 + 20)) ∧
    (∀ out, div_floor s.current_pos.1 8 ≠ div_floor (s.current_pos.1 - 1) 8 →
        s.set_pos get_tile vram (s.current_pos.1 - 1, s.current_pos.2) = some out →
        out.2.2 = []) ∧
    (∀ new_pos out,
        (new_pos.1 - s.current_pos.1).natAbs ≤ 80 → (new_pos.2 - s.current_pos.2).natAbs ≤ 80 →
        div_floor s.current_pos.1 8 = div_floor new_pos.1 8 →
        div_floor s.current_pos.2 8 = div_floor new_pos.2 8 →
        s.set_pos get_tile vram new_pos = some out → out.2.2 = []) := by
  refine ⟨?_, ?_, ?_, ?_, ?_, ?_⟩
  · intro new_pos hj
    rw [InfiniteScrolledMap.set_pos]
    have hcond : (new_pos.1 - s.current_pos.1).natAbs > 10 * 8 ∨
        (new_pos.2 - s.current_pos.2).natAbs > 10 * 8 := by omega
    exact if_pos hcond
  · intro pos out h
    rw [init_log s get_tile vram pos out h]
    exact init_cells_snd pos
  · intro out hc hsp
    have hx : ((s.current_pos.1 + 1, s.current_pos.2).1 - s.current_pos.1).natAbs ≤ 80 := by
      show (s.current_pos.1 + 1 - s.current_pos.1).natAbs ≤ 80
      omega
    have hy : ((s.current_pos.1 + 1, s.current_pos.2).2 - s.current_pos.2).natAbs ≤ 80 := by
      show (s.current_pos.2 - s.current_pos.2).natAbs ≤ 80
      omega
    rw [set_pos_log s get_tile vram _ out hx hy hsp]
    exact set_pos_points_right s.current_pos hc
  · intro out hc hsp
    have hx : ((s.current_pos.1, s.current_pos.2 + 1).1 - s.current_pos.1).natAbs ≤ 80 := by
      show (s.current_pos.1 - s.current_pos.1).natAbs ≤ 80
      omega
    have hy : ((s.current_pos.1, s.current_pos.2 + 1).2 - s.current_pos.2).natAbs ≤ 80 := by
      show (s.current_pos.2 + 1 - s.current_pos.2).natAbs ≤ 80
      omega
    rw [set_pos_log s get_tile vram _ out hx hy hsp]
    exact set_pos_points_down s.current_pos hc
  · intro out hc hsp
    have hx : ((s.current_pos.1 - 1, s.current_pos.2).1 - s.current_pos.1).natAbs ≤ 80 := by
      show (s.current_pos.1 - 1 - s.current_pos.1).natAbs ≤ 80
      omega
    have hy : ((s.current_pos.1 - 1, s.current_pos.2).2 - s.current_pos.2).natAbs ≤ 80 := by
      show (s.current_pos.2 - s.current_pos.2).natAbs ≤ 80
      omega
    rw [set_pos_log s get_tile vram _ out hx hy hsp]
    exact set_pos_points_left s.current_pos hc
  · intro new_pos out hx80 hy80 hfx hfy hsp
    rw [set_pos_log s get_tile vram new_pos out hx80 hy80 hsp]
    exact set_pos_points_same s.current_pos new_pos hfx hfy

set_option maxRecDepth 40000 in
theorem spec_c4_scroll_window_witness :
    div_floor exampleScroll.current_pos.1 8 ≠ div_floor (exampleScroll.current_pos.1 + 1) 8 ∧
    exampleScroll.set_pos zeroTile VRamManager.new
      (exampleScroll.current_pos.1 + 1, exampleScroll.current_pos.2) = some exampleScrollOut ∧
    exampleScrollOut.2.2 = ((List.range 22).map fun k : Nat =>
      (div_floor (exampleScroll.current_pos.1 + 1) 8 + 30,
       div_floor exampleScroll.current_pos.2 8 - 1 + (k : Int))) :=
  ⟨by decide, by decide,
   (spec_c4_scroll_window exampleScroll zeroTile VRamManager.new).2.2.1 exampleScrollOut
     (by decide) (by decide)⟩
